import Mathlib

/-
Verification of the claims import/export pipeline of the erisa-dev-challenge
repository (src/claims/utils.py, src/claims/forms.py, src/claims/models.py,
src/claims/views.py) against its natural-language specification.

The embedding below translates the Python source into Lean definitions:
  * Python `Decimal` values are pairs (coefficient, exponent) with value
    coeff * 10 ^ exp; the constructor grammar and str() rendering follow the
    decimal specification for finite numbers.  The special values NaN and
    Infinity are not represented: on every input the code path they would
    take still ends in the same error verdict (NaN comparisons raise
    InvalidOperation, Infinity fails the upper bound), so excluding them
    from the parser preserves the observable success/error behaviour.
  * Uploaded files are modelled by their size together with the outcome of
    reading them as pipe-delimited CSV (header list + record list) and as a
    JSON array of records; a read outcome of `Except.error` stands for the
    UnicodeDecodeError / JSONDecodeError the corresponding Python read
    raises.  Records are association lists from field name to string value.
  * Django's `transaction.atomic` is modelled explicitly: the transactional
    body either returns the mutated store or an error, in which case the
    store reverts to its state before the call.
  * The record store (Claim / ClaimDetail / Flag tables) is a structure of
    lists in insertion order; deleting a claim cascades to its flags, as
    `on_delete=CASCADE` does.
-/

/-! ## Character and digit primitives -/

/-- The ten decimal digit characters, by value. -/
def digCh : Nat → Char
  | 0 => '0' | 1 => '1' | 2 => '2' | 3 => '3' | 4 => '4'
  | 5 => '5' | 6 => '6' | 7 => '7' | 8 => '8' | _ => '9'

/-- Is this character an ASCII decimal digit? -/
def isDig (c : Char) : Bool := 48 ≤ c.toNat && c.toNat ≤ 57

/-- Numeric value of an ASCII digit character. -/
def digVal (c : Char) : Nat := c.toNat - 48

/-- Base-10 value of a list of digit characters (most significant first). -/
def digitsToNat (l : List Char) : Nat := l.foldl (fun a c => 10 * a + digVal c) 0

/-- Digit characters of `n`, most significant first; `[]` for `n = 0`.
The first argument is structural fuel (any bound on the number of digits
works; we always call it with `n` itself). -/
def natDigsAux : Nat → Nat → List Char
  | 0, _ => []
  | fuel + 1, n => if n = 0 then [] else natDigsAux fuel (n / 10) ++ [digCh (n % 10)]

/-- Digit characters of `n`, rendering 0 as "0" (Python's str on a Nat). -/
def decimalDigits (n : Nat) : List Char := if n = 0 then ['0'] else natDigsAux n n

/-- Python str() of a nonnegative integer. -/
def natStr (n : Nat) : String := String.mk (decimalDigits n)

/-- Python str() of an integer. -/
def intStr (i : Int) : String :=
  String.mk ((if i < 0 then ['-'] else []) ++ decimalDigits i.natAbs)

/-- Left-pad a digit list with zeros to width `n` (str.zfill / %04d). -/
def zfill (n : Nat) (l : List Char) : List Char := List.replicate (n - l.length) '0' ++ l

/-! ## Python string helpers -/

/-- The whitespace characters str.strip removes (ASCII subset). -/
def isPySpace (c : Char) : Bool :=
  c = ' ' || c = '\t' || c = '\n' || c = '\x0b' || c = '\x0c' || c = '\r'

/-- str.strip() on a character list. -/
def stripList (l : List Char) : List Char :=
  ((l.dropWhile isPySpace).reverse.dropWhile isPySpace).reverse

/-- Python str.strip(). -/
def pyStrip (s : String) : String := String.mk (stripList s.data)

/-- Python s[:n] on a string. -/
def pyTake (n : Nat) (s : String) : String := String.mk (s.data.take n)

/-- Python str.lower(), ASCII-only (file names in this code base are ASCII). -/
def pyLower (s : String) : String :=
  String.mk (s.data.map fun c => if 65 ≤ c.toNat && c.toNat ≤ 90 then Char.ofNat (c.toNat + 32) else c)

/-- Python int(s): optional surrounding whitespace, optional sign, digits.
(Exotic int() forms such as digit-group underscores are omitted; no input in
any claim uses them, and both import formats share this parser.) -/
def pyIntParse (s : String) : Except String Int :=
  let l := stripList s.data
  let p : Int × List Char :=
    if l.head? = some '-' then (-1, l.tail)
    else if l.head? = some '+' then (1, l.tail)
    else (1, l)
  if p.2 ≠ [] ∧ p.2.all isDig then .ok (p.1 * (digitsToNat p.2 : Int))
  else .error ("invalid literal for int() with base 10: \x27" ++ s ++ "\x27")

/-- Split a character list at every occurrence of `sep`. -/
def splitOnChar (sep : Char) : List Char → List (List Char)
  | [] => [[]]
  | c :: rest =>
    if c = sep then [] :: splitOnChar sep rest
    else
      match splitOnChar sep rest with
      | [] => [[c]]
      | p :: ps => (c :: p) :: ps

/-! ## Python Decimal -/

/-- A finite Python Decimal: value `coeff * 10 ^ exp`.  (A negative zero
coefficient is identified with zero; it changes no comparison the code
makes.) -/
structure PyDecimal where
  coeff : Int
  exp : Int
deriving DecidableEq, Repr

/-- Decimal comparison `a < b`, carried out over a common exponent. -/
def PyDecimal.lt (a b : PyDecimal) : Bool :=
  let e := min a.exp b.exp
  a.coeff * 10 ^ (a.exp - e).toNat < b.coeff * 10 ^ (b.exp - e).toNat

/-- Split a mantissa off at the first exponent marker `e`/`E`. -/
def splitExpMarker : List Char → List Char × Option (List Char)
  | [] => ([], none)
  | c :: rest =>
    if c = 'e' || c = 'E' then ([], some rest)
    else
      let p := splitExpMarker rest
      (c :: p.1, p.2)

/-- Parse `digits [. digits]` into (coefficient, exponent); at least one
digit must be present on one side of the point. -/
def parseMantissa (l : List Char) : Option (Int × Int) :=
  match splitOnChar '.' l with
  | [ip] => if ip ≠ [] ∧ ip.all isDig then some ((digitsToNat ip : Int), 0) else none
  | [ip, fp] =>
    if (ip ≠ [] ∨ fp ≠ []) ∧ ip.all isDig ∧ fp.all isDig then
      some ((digitsToNat (ip ++ fp) : Int), -(fp.length : Int))
    else none
  | _ => none

/-- Parse an exponent part: optional sign, digits. -/
def parseExpPart (l : List Char) : Option Int :=
  let p : Int × List Char :=
    if l.head? = some '-' then (-1, l.tail)
    else if l.head? = some '+' then (1, l.tail)
    else (1, l)
  if p.2 ≠ [] ∧ p.2.all isDig then some (p.1 * (digitsToNat p.2 : Int)) else none

/-- The Decimal constructor on a (pre-stripped) numeric string: finite
numbers of the decimal grammar `sign? mantissa ([eE] sign? digits)?`. -/
def parseDecimalString (s : String) : Option PyDecimal :=
  let q : Int × List Char :=
    if s.data.head? = some '-' then (-1, s.data.tail)
    else if s.data.head? = some '+' then (1, s.data.tail)
    else (1, s.data)
  let m := splitExpMarker q.2
  match parseMantissa m.1 with
  | none => none
  | some ce =>
    match m.2 with
    | none => some ⟨q.1 * ce.1, ce.2⟩
    | some ep =>
      match parseExpPart ep with
      | none => none
      | some k => some ⟨q.1 * ce.1, ce.2 + k⟩

/-- Digit rendering of str(Decimal) for a nonnegative coefficient
(`to_sci_string` of the decimal specification). -/
def decimalStrAux (c : Nat) (e : Int) : List Char :=
  let ds := decimalDigits c
  let adj : Int := e + ds.length - 1
  if e ≤ 0 ∧ -6 ≤ adj then
    if e = 0 then ds
    else
      let n := (-e).toNat
      if n < ds.length then ds.take (ds.length - n) ++ '.' :: ds.drop (ds.length - n)
      else '0' :: '.' :: (List.replicate (n - ds.length) '0' ++ ds)
  else
    (match ds with
     | [d] => [d]
     | d :: rest => d :: '.' :: rest
     | [] => []) ++ 'E' :: (if adj < 0 then '-' else '+') :: decimalDigits adj.natAbs

/-- Python str(Decimal). -/
def decimalStr (d : PyDecimal) : String :=
  String.mk ((if d.coeff < 0 then ['-'] else []) ++ decimalStrAux d.coeff.natAbs d.exp)

/-! ## Dates -/

/-- A Python datetime.date (validity is a separate predicate). -/
structure PyDate where
  year : Nat
  month : Nat
  day : Nat
deriving DecidableEq, Repr

/-- Gregorian leap year. -/
def isLeap (y : Nat) : Bool := y % 4 = 0 && (y % 100 ≠ 0 || y % 400 = 0)

/-- Days in a month. -/
def daysInMonth (y m : Nat) : Nat :=
  if m = 2 then (if isLeap y then 29 else 28)
  else if m = 4 || m = 6 || m = 9 || m = 11 then 30
  else 31

/-- datetime.date accepts exactly these (year, month, day) triples. -/
def isValidDate (y m d : Nat) : Bool :=
  1 ≤ y && y ≤ 9999 && 1 ≤ m && m ≤ 12 && 1 ≤ d && d ≤ daysInMonth y m

/-- One strptime attempt: `sep`-separated, `ord` gives the field order
(0 = year-month-day, 1 = month-day-year, 2 = day-month-year); %Y matches
1-4 digits, %m and %d match 1-2 digits, and the date must be valid. -/
def tryFormat (sep : Char) (ord : Nat) (l : List Char) : Option PyDate :=
  match splitOnChar sep l with
  | [a, b, c] =>
    let fieldOk (f : List Char) (maxLen : Nat) : Bool :=
      !f.isEmpty && f.length ≤ maxLen && f.all isDig
    let yms : List Char × List Char × List Char :=
      match ord with
      | 0 => (a, b, c)
      | 1 => (c, a, b)
      | _ => (c, b, a)
    if fieldOk yms.1 4 && fieldOk yms.2.1 2 && fieldOk yms.2.2 2 then
      let y := digitsToNat yms.1
      let m := digitsToNat yms.2.1
      let d := digitsToNat yms.2.2
      if isValidDate y m d then some ⟨y, m, d⟩ else none
    else none
  | _ => none

/-- The ordered strptime attempts of `_parse_date`: %Y-%m-%d, %m/%d/%Y,
%d/%m/%Y, %Y/%m/%d, %m-%d-%Y, %d-%m-%Y. -/
def pyParseDateFormats (s : String) : Option PyDate :=
  (tryFormat '-' 0 s.data) <|> (tryFormat '/' 1 s.data) <|> (tryFormat '/' 2 s.data) <|>
    (tryFormat '/' 0 s.data) <|> (tryFormat '-' 1 s.data) <|> (tryFormat '-' 2 s.data)

/-- date.strftime of the export format string (zero-padded %Y-%m-%d). -/
def strfDate (d : PyDate) : String :=
  String.mk (zfill 4 (decimalDigits d.year) ++ '-' ::
    (zfill 2 (decimalDigits d.month) ++ '-' :: zfill 2 (decimalDigits d.day)))

/-! ## Records and the store -/

/-- A parsed input record: field name to string value association list
(the dict a csv.DictReader row or a JSON object provides). -/
abbrev RawRow := List (String × String)

/-- Python row[k]: the value, or a KeyError carrying the quoted key. -/
def getItem (row : RawRow) (k : String) : Except String String :=
  match List.lookup k row with
  | some v => .ok v
  | none => .error ("\x27" ++ k ++ "\x27")

/-- Python row.get(k, dflt). -/
def rget (row : RawRow) (k dflt : String) : String := (List.lookup k row).getD dflt

/-- A stored Claim row (src/claims/models.py). -/
structure ClaimRec where
  id : Int
  patient_name : String
  billed_amount : PyDecimal
  paid_amount : PyDecimal
  status : String
  insurer_name : String
  discharge_date : PyDate
  burger_combo_code : String
deriving DecidableEq, Repr

/-- A stored ClaimDetail row (one-to-one with its claim). -/
structure DetailRec where
  claim_id : Int
  cpt_codes : String
  denial_reason : Option String
deriving DecidableEq, Repr

/-- A stored Flag row (creation timestamp omitted: no claim concerns it). -/
structure FlagRec where
  claim_id : Int
  user : Nat
  reason : String
deriving DecidableEq, Repr

/-- The record store, lists in insertion order. -/
structure Store where
  claims : List ClaimRec
  details : List DetailRec
  flags : List FlagRec
deriving DecidableEq, Repr

def Store.findClaim (st : Store) (i : Int) : Option ClaimRec :=
  st.claims.find? (fun c => c.id == i)

def Store.findDetail (st : Store) (i : Int) : Option DetailRec :=
  st.details.find? (fun d => d.claim_id == i)

/-- Overwrite the fields of the claim with id `c.id` in place. -/
def Store.updateClaim (st : Store) (c : ClaimRec) : Store :=
  { st with claims := st.claims.map (fun o => if o.id == c.id then c else o) }

/-- Overwrite the fields of the detail of claim `d.claim_id` in place. -/
def Store.updateDetail (st : Store) (d : DetailRec) : Store :=
  { st with details := st.details.map (fun o => if o.claim_id == d.claim_id then d else o) }

def emptyStore : Store := ⟨[], [], []⟩

/-- ClaimDetail.objects.all().delete(). -/
def deleteAllDetails (st : Store) : Store := { st with details := [] }

/-- Claim.objects.all().delete(); deleting every claim cascades
(on_delete=CASCADE) to every flag. -/
def deleteAllClaims (st : Store) : Store := { st with claims := [], flags := [] }

/-- The running tally a DataImporter holds. -/
structure Results where
  claims_created : Nat
  claims_updated : Nat
  details_created : Nat
  details_updated : Nat
  errors : List String
deriving DecidableEq, Repr

def emptyResults : Results := ⟨0, 0, 0, 0, []⟩

def addError (r : Results) (e : String) : Results := { r with errors := r.errors ++ [e] }

/-! ## Field coercion (DataImporter helpers) -/

/-- Placeholder for str() of the InvalidOperation a malformed Decimal
raises; its exact text decides no claim. -/
def conversionSyntaxMsg : String := "[<class \x27decimal.ConversionSyntax\x27>]"

/-- replace('$','').replace(',','') of safe_decimal_conversion. -/
def removeDollarsCommas (s : String) : String :=
  String.mk ((s.data.filter (fun c => c ≠ '$')).filter (fun c => c ≠ ','))

/-- Decimal('9999999.99'), the upper bound of safe_decimal_conversion. -/
def decimalUpperBound : PyDecimal := ⟨999999999, -2⟩

/-- DataImporter.safe_decimal_conversion. -/
def safe_decimal_conversion (value field_name : String) : Except String PyDecimal :=
  let cleaned := pyStrip (removeDollarsCommas value)
  if cleaned = "" then .ok ⟨0, -2⟩
  else
    match parseDecimalString cleaned with
    | none => .error ("Invalid " ++ field_name ++ ": \x27" ++ value ++ "\x27 - " ++ conversionSyntaxMsg)
    | some d =>
      if d.lt ⟨0, 0⟩ then
        .error ("Invalid " ++ field_name ++ ": \x27" ++ value ++ "\x27 - Negative value not allowed for " ++ field_name)
      else if decimalUpperBound.lt d then
        .error ("Invalid " ++ field_name ++ ": \x27" ++ value ++ "\x27 - Value too large for " ++ field_name)
      else .ok d

/-- DataImporter._parse_date. -/
def parse_date (date_str context : String) : Except String PyDate :=
  match pyParseDateFormats date_str with
  | some d => .ok d
  | none => .error (context ++ " Invalid date format: " ++ date_str ++
      ". Expected YYYY-MM-DD or MM/DD/YYYY or DD/MM/YYYY")

def validStatuses : List String := ["Paid", "Denied", "Under Review"]

/-- Python repr of the valid_statuses list, as interpolated into the error. -/
def validStatusesRepr : String := "[\x27Paid\x27, \x27Denied\x27, \x27Under Review\x27]"

/-! ## Claims row processing (shared body of _import_claims_csv and
_import_claims_json, which are textually identical per record) -/

/-- Field parsing and validation of one claims record, in source order;
`ctx` is the positional tag ("Row n" / "Item n") the date error embeds. -/
def parseClaimRow (ctx : String) (row : RawRow) : Except String ClaimRec := do
  let idStr ← getItem row "id"
  let claim_id ← pyIntParse idStr
  if claim_id ≤ 0 then throw ("Invalid claim ID: " ++ intStr claim_id)
  let dateStr ← getItem row "discharge_date"
  let discharge_date ← parse_date dateStr ctx
  let billedStr ← getItem row "billed_amount"
  let billed_amount ← safe_decimal_conversion billedStr "billed_amount"
  let paidStr ← getItem row "paid_amount"
  let paid_amount ← safe_decimal_conversion paidStr "paid_amount"
  let status ← getItem row "status"
  if ¬ validStatuses.contains status then
    throw ("Invalid status: " ++ status ++ ". Must be one of: " ++ validStatusesRepr)
  if pyStrip (rget row "patient_name" "") = "" then throw "Patient name is required"
  if pyStrip (rget row "insurer_name" "") = "" then throw "Insurer name is required"
  pure {
    id := claim_id
    patient_name := pyTake 255 (pyStrip (rget row "patient_name" ""))
    billed_amount := billed_amount
    paid_amount := paid_amount
    status := status
    insurer_name := pyTake 255 (pyStrip (rget row "insurer_name" ""))
    discharge_date := discharge_date
    burger_combo_code := pyTake 100 (rget row "burger_combo_code" "") }

/-- Claim.objects.get_or_create followed by the conditional in-place update
(`append` is `operation == 'add'`). -/
def applyClaim (append : Bool) (c : ClaimRec) (acc : Store × Results) : Store × Results :=
  match acc.1.findClaim c.id with
  | none => ({ acc.1 with claims := acc.1.claims ++ [c] },
             { acc.2 with claims_created := acc.2.claims_created + 1 })
  | some _ =>
    if append then acc
    else (acc.1.updateClaim c, { acc.2 with claims_updated := acc.2.claims_updated + 1 })

/-- One iteration of the per-record try/except loop for claims. -/
def processClaimRow (append : Bool) (ctx : String) (row : RawRow) (acc : Store × Results) :
    Store × Results :=
  match parseClaimRow ctx row with
  | .error e => (acc.1, addError acc.2 (ctx ++ ": " ++ e))
  | .ok c => applyClaim append c acc

/-- The enumerate loop: thread an index and an accumulator through rows. -/
def importRowsAux (step : Nat → RawRow → Store × Results → Store × Results) :
    Nat → List RawRow → Store × Results → Store × Results
  | _, [], acc => acc
  | k, r :: rs, acc => importRowsAux step (k + 1) rs (step k r acc)

/-- Positional tag of CSV rows: line numbers start at 2 (line 1 is the header). -/
def csvCtx (k : Nat) : String := "Row " ++ natStr (k + 2)

/-- Positional tag of JSON items: 1-based index. -/
def jsonCtx (k : Nat) : String := "Item " ++ natStr (k + 1)

def importClaimsRows (append : Bool) (ctx : Nat → String) (rows : List RawRow)
    (acc : Store × Results) : Store × Results :=
  importRowsAux (fun k r a => processClaimRow append (ctx k) r a) 0 rows acc

def csvLimitMsg : String := "File exceeds maximum allowed rows (50000)"

def jsonLimitMsg : String := "JSON file exceeds maximum allowed rows (50000)"

/-- _import_claims_csv on decoded rows: the loop breaks after MAX_ROWS
processed rows, appending one summary error. -/
def importClaimsCsvRows (rows : List RawRow) (append : Bool) (acc : Store × Results) :
    Store × Results :=
  if rows.length > 50000 then
    let a := importClaimsRows append csvCtx (rows.take 50000) acc
    (a.1, addError a.2 csvLimitMsg)
  else importClaimsRows append csvCtx rows acc

/-- _import_claims_json on decoded items: the list is truncated to MAX_ROWS
after appending one summary error. -/
def importClaimsJsonRows (rows : List RawRow) (append : Bool) (acc : Store × Results) :
    Store × Results :=
  if rows.length > 50000 then
    importClaimsRows append jsonCtx (rows.take 50000) (acc.1, addError acc.2 jsonLimitMsg)
  else importClaimsRows append jsonCtx rows acc

/-! ## Details row processing (shared body of _import_details_csv and
_import_details_json; note: no row ceiling exists in these two loops) -/

/-- One iteration of the per-record try/except loop for details, in source
order: claim_id lookup happens before the cpt_codes access. -/
def processDetailRow (append : Bool) (ctx : String) (row : RawRow) (acc : Store × Results) :
    Store × Results :=
  match (do
    let cidStr ← getItem row "claim_id"
    let claim_id ← pyIntParse cidStr
    match acc.1.findClaim claim_id with
    | none => throw ("Claim " ++ intStr claim_id ++ " not found")
    | some _ => do
      let cpt ← getItem row "cpt_codes"
      let denialRaw := rget row "denial_reason" ""
      let denial := if denialRaw = "" then none else some denialRaw
      match acc.1.findDetail claim_id with
      | none => pure ({ acc.1 with details := acc.1.details ++ [⟨claim_id, cpt, denial⟩] },
                      { acc.2 with details_created := acc.2.details_created + 1 })
      | some _ =>
        if append then pure acc
        else pure (acc.1.updateDetail ⟨claim_id, cpt, denial⟩,
                   { acc.2 with details_updated := acc.2.details_updated + 1 })
    : Except String (Store × Results)) with
  | .ok a => a
  | .error e => (acc.1, addError acc.2 (ctx ++ ": " ++ e))

def importDetailsRows (append : Bool) (ctx : Nat → String) (rows : List RawRow)
    (acc : Store × Results) : Store × Results :=
  importRowsAux (fun k r a => processDetailRow append (ctx k) r a) 0 rows acc

/-! ## Files and import_data -/

deriving instance DecidableEq for Except

/-- An uploaded file: its byte size, its name, and the outcomes of reading
its bytes as pipe-delimited CSV (header list and record dicts; `Except.error`
is the UnicodeDecodeError the read raises) and as a JSON array of objects
(`Except.error` is the decode or JSON parse error). -/
structure UFile where
  size : Nat
  name : String
  csvContent : Except String (Option (List String) × List RawRow)
  jsonContent : Except String (List RawRow)
deriving DecidableEq, Repr

def MAX_FILE_SIZE : Nat := 50 * 1024 * 1024

/-- DataImporter.validate_file: only a size ceiling (no emptiness check). -/
def validate_file (f : UFile) : Except String Unit :=
  if f.size > MAX_FILE_SIZE then .error "File size exceeds maximum limit of 50MB" else .ok ()

inductive FileType | csv | json
deriving DecidableEq, Repr

inductive Operation | add | overwrite
deriving DecidableEq, Repr

/-- The body of the `with transaction.atomic()` block of import_data:
optional destructive delete (details first, then claims), then the
claims import, then the optional details import.  An `Except.error` is an
exception escaping the block, which rolls the transaction back. -/
def importBody (st : Store) (claims_file : UFile) (details_file : Option UFile)
    (file_type : FileType) (operation : Operation) : Except String (Store × Results) := do
  let st0 := if operation = .overwrite then deleteAllClaims (deleteAllDetails st) else st
  let append := operation = .add
  match file_type with
  | .csv => do
    let c ← claims_file.csvContent
    let acc := importClaimsCsvRows c.2 append (st0, emptyResults)
    match details_file with
    | none => pure acc
    | some df => do
      let d ← df.csvContent
      pure (importDetailsRows append csvCtx d.2 acc)
  | .json => do
    let c ← claims_file.jsonContent
    let acc := importClaimsJsonRows c append (st0, emptyResults)
    match details_file with
    | none => pure acc
    | some df => do
      let d ← df.jsonContent
      pure (importDetailsRows append jsonCtx d acc)

/-- DataImporter.import_data: validate sizes, then run the transactional
body; an escaping exception leaves the store as it was (rollback) and
re-raises with the underlying cause attached. -/
def import_data (st : Store) (claims_file : UFile) (details_file : Option UFile)
    (file_type : FileType) (operation : Operation) : Store × Except String Results :=
  match validate_file claims_file with
  | .error e => (st, .error ("Validation failed: " ++ e))
  | .ok _ =>
    match (match details_file with
           | some df => validate_file df
           | none => .ok ()) with
    | .error e => (st, .error ("Validation failed: " ++ e))
    | .ok _ =>
      match importBody st claims_file details_file file_type operation with
      | .error e => (st, .error ("Import failed: " ++ e))
      | .ok a => (a.1, .ok a.2)

/-! ## Upload-form validation (DataUploadForm.clean_claims_file) -/

def requiredClaimHeaders : List String :=
  ["id", "patient_name", "billed_amount", "paid_amount", "status", "insurer_name", "discharge_date"]

def joinCommaSep : List String → String
  | [] => ""
  | [x] => x
  | x :: xs => x ++ ", " ++ joinCommaSep xs

/-- DataUploadForm.clean_claims_file: extension gate, then content checks.
(The required-set difference is rendered in list order; Python renders the
set in an unspecified order, which no claim depends on.) -/
def clean_claims_file (file_type : FileType) (f : UFile) : Except String Unit :=
  match file_type with
  | .csv =>
    if ¬ (pyLower f.name).endsWith ".csv" then
      .error "Please upload a CSV file when CSV format is selected."
    else
      match f.csvContent with
      | .error _ => .error "File encoding error. Please use UTF-8 encoding."
      | .ok c =>
        let missing := requiredClaimHeaders.filter (fun h => ¬ (c.1.getD []).contains h)
        if missing ≠ [] then .error ("Missing required columns: " ++ joinCommaSep missing)
        else .ok ()
  | .json =>
    if ¬ (pyLower f.name).endsWith ".json" then
      .error "Please upload a JSON file when JSON format is selected."
    else
      match f.jsonContent with
      | .error _ => .error "Invalid JSON file format."
      | .ok items =>
        match items with
        | [] => .error "JSON file must contain a list of claim objects."
        | first :: _ =>
          let missing := requiredClaimHeaders.filter (fun h => ¬ (first.map Prod.fst).contains h)
          if missing ≠ [] then .error ("Missing required fields in JSON: " ++ joinCommaSep missing)
          else .ok ()

/-! ## Flagging (views.flag_claim) -/

/-- views.flag_claim: id validation, claim lookup, then
Flag.objects.get_or_create on the (claim, user) pair.  Returns the
`created` flag; an error is the JSON error response. -/
def flag_claim (st : Store) (user : Nat) (claim_id : Int) : Except String (Store × Bool) :=
  if claim_id ≤ 0 then .error "Invalid claim ID"
  else
    match st.findClaim claim_id with
    | none => .error "Claim not found"
    | some _ =>
      match st.flags.find? (fun f => f.claim_id == claim_id && f.user == user) with
      | some _ => .ok (st, false)
      | none =>
        .ok ({ st with flags := st.flags ++ [⟨claim_id, user, "Flagged for review"⟩] }, true)

/-! ## Export (export_claims_to_json / export_claims_to_csv) -/

/-- The field mapping one exported claim produces (the dict handed to the
JSON list / csv writer; the integer id is emitted as its decimal string,
which int() reads back identically). -/
def exportClaimRow (c : ClaimRec) : RawRow :=
  [("id", intStr c.id), ("patient_name", c.patient_name),
   ("billed_amount", decimalStr c.billed_amount), ("paid_amount", decimalStr c.paid_amount),
   ("status", c.status), ("insurer_name", c.insurer_name),
   ("discharge_date", strfDate c.discharge_date),
   ("burger_combo_code", c.burger_combo_code)]

/-- The field mapping one exported detail produces (`denial_reason or ''`). -/
def exportDetailRow (d : DetailRec) : RawRow :=
  [("claim_id", intStr d.claim_id), ("cpt_codes", d.cpt_codes),
   ("denial_reason", d.denial_reason.getD "")]

/-- export_claims_to_json: claim dicts in store order, plus one detail dict
per claim that has an attached detail. -/
def export_claims_to_json (st : Store) : List RawRow × List RawRow :=
  (st.claims.map exportClaimRow,
   st.claims.filterMap (fun c => (st.findDetail c.id).map exportDetailRow))

/-- export_claims_to_csv: same claim rows; detail rows in detail-table order. -/
def export_claims_to_csv (st : Store) : List RawRow × List RawRow :=
  (st.claims.map exportClaimRow, st.details.map exportDetailRow)

/-! ## Well-formed stores (the documented data model of the spec) -/

/-- An amount as the DECIMAL(10,2) column stores it: two fractional digits,
nonnegative, at most 9,999,999.99. -/
def decimalOk (d : PyDecimal) : Bool :=
  d.exp = -2 && 0 ≤ d.coeff && d.coeff ≤ 999999999

/-- A claim satisfying the documented data-model invariants: positive id,
trimmed nonempty bounded names, bounded amounts, enumerated status, valid
date, bounded optional code. -/
def WFClaim (c : ClaimRec) : Bool :=
  (0 < c.id) &&
  (pyStrip c.patient_name == c.patient_name) && (c.patient_name ≠ "") &&
  (c.patient_name.data.length ≤ 255) &&
  decimalOk c.billed_amount && decimalOk c.paid_amount &&
  validStatuses.contains c.status &&
  (pyStrip c.insurer_name == c.insurer_name) && (c.insurer_name ≠ "") &&
  (c.insurer_name.data.length ≤ 255) &&
  isValidDate c.discharge_date.year c.discharge_date.month c.discharge_date.day &&
  (c.burger_combo_code.data.length ≤ 100)

/-- A detail satisfying the data model: its claim exists (FK), and an absent
denial reason is stored as NULL, never as the empty string. -/
def WFDetail (st : Store) (d : DetailRec) : Bool :=
  (st.findClaim d.claim_id).isSome && (d.denial_reason ≠ some "")

/-- A store satisfying the documented data model: well-formed claims with
unique ids, well-formed details at most one per claim, and at most
the 50,000-row ceiling of claims. -/
def WFStore (st : Store) : Prop :=
  (∀ c ∈ st.claims, WFClaim c = true) ∧
  (st.claims.map ClaimRec.id).Nodup ∧
  (∀ d ∈ st.details, WFDetail st d = true) ∧
  (st.details.map DetailRec.claim_id).Nodup ∧
  st.claims.length ≤ 50000

instance : DecidablePred WFStore := fun st => by
  unfold WFStore; infer_instance

/-- The at-most-one-Flag-per-(claim, user) invariant. -/
def AtMostOneFlag (st : Store) : Prop :=
  st.flags.Pairwise (fun f g => ¬ (f.claim_id = g.claim_id ∧ f.user = g.user))

instance : DecidablePred AtMostOneFlag := fun st => by
  unfold AtMostOneFlag; infer_instance

/-! ## Per-row error rendering, shared between the two claims importers -/

/-- The error string (if any) a claims record contributes, as a function of
the record and its positional tag only. -/
def claimRowError (ctx : String) (row : RawRow) : Option String :=
  match parseClaimRow ctx row with
  | .error e => some (ctx ++ ": " ++ e)
  | .ok _ => none

/-- The full error list of a claims import, rendered with a tag function. -/
def claimRowErrors (ctx : Nat → String) : Nat → List RawRow → List String
  | _, [] => []
  | k, r :: rs =>
    (match claimRowError (ctx k) r with
     | some e => [e]
     | none => []) ++ claimRowErrors ctx (k + 1) rs

/-! ## Digit lemmas -/

theorem digitsToNat_append_singleton (l : List Char) (c : Char) :
    digitsToNat (l ++ [c]) = 10 * digitsToNat l + digVal c := by
  simp [digitsToNat, List.foldl_append]

theorem digVal_digCh {d : Nat} (h : d < 10) : digVal (digCh d) = d := by
  interval_cases d <;> decide

theorem isDig_digCh {d : Nat} (h : d < 10) : isDig (digCh d) = true := by
  interval_cases d <;> decide

theorem digitsToNat_natDigsAux : ∀ fuel n, n ≤ fuel → digitsToNat (natDigsAux fuel n) = n := by
  intro fuel
  induction fuel with
  | zero => intro n h; interval_cases n; decide
  | succ fuel ih =>
    intro n h
    by_cases hn : n = 0
    · simp [natDigsAux, hn, digitsToNat]
    · have hlt : n / 10 < n := Nat.div_lt_self (Nat.pos_of_ne_zero hn) (by norm_num)
      have hle : n / 10 ≤ fuel := by omega
      rw [natDigsAux, if_neg hn, digitsToNat_append_singleton, ih _ hle,
        digVal_digCh (Nat.mod_lt _ (by norm_num))]
      omega

theorem natDigsAux_all_isDig : ∀ fuel n, ∀ c ∈ natDigsAux fuel n, isDig c = true := by
  intro fuel
  induction fuel with
  | zero => intro n c hc; simp [natDigsAux] at hc
  | succ fuel ih =>
    intro n c hc
    by_cases hn : n = 0
    · simp [natDigsAux, hn] at hc
    · rw [natDigsAux, if_neg hn] at hc
      rcases List.mem_append.mp hc with h | h
      · exact ih _ _ h
      · simp at h
        subst h
        exact isDig_digCh (Nat.mod_lt _ (by norm_num))

theorem natDigsAux_length_le : ∀ fuel n k, n ≤ fuel → n < 10 ^ k →
    (natDigsAux fuel n).length ≤ k := by
  intro fuel
  induction fuel with
  | zero => intro n k h _; interval_cases n; simp [natDigsAux]
  | succ fuel ih =>
    intro n k h hk
    by_cases hn : n = 0
    · simp [natDigsAux, hn]
    · rw [natDigsAux, if_neg hn]
      rcases Nat.eq_zero_or_pos k with hk0 | hkpos
      · subst hk0; simp at hk; omega
      · have h1 : n / 10 ≤ fuel := by
          have : n / 10 < n := Nat.div_lt_self (Nat.pos_of_ne_zero hn) (by norm_num)
          omega
        have h2 : n / 10 < 10 ^ (k - 1) := by
          have h10 : (0:Nat) < 10 := by norm_num
          rw [Nat.div_lt_iff_lt_mul h10]
          calc n < 10 ^ k := hk
          _ = 10 ^ (k - 1) * 10 := by
            rw [← pow_succ]
            congr 1
            omega
        have := ih (n / 10) (k - 1) h1 h2
        simp only [List.length_append, List.length_cons, List.length_nil]
        omega

theorem digitsToNat_replicate_zero : ∀ k l,
    digitsToNat (List.replicate k '0' ++ l) = digitsToNat l := by
  intro k
  induction k with
  | zero => intro l; simp
  | succ k ih =>
    intro l
    rw [List.replicate_succ]
    show digitsToNat ('0' :: (List.replicate k '0' ++ l)) = digitsToNat l
    have : digitsToNat ('0' :: (List.replicate k '0' ++ l)) =
        (List.replicate k '0' ++ l).foldl (fun a c => 10 * a + digVal c) (10 * 0 + digVal '0') := by
      simp [digitsToNat, List.foldl_cons]
    rw [this]
    have hz : 10 * 0 + digVal '0' = 0 := by decide
    rw [hz]
    exact ih l

theorem digitsToNat_decimalDigits (n : Nat) : digitsToNat (decimalDigits n) = n := by
  by_cases hn : n = 0
  · subst hn; decide
  · rw [decimalDigits, if_neg hn]
    exact digitsToNat_natDigsAux n n le_rfl

theorem decimalDigits_all_isDig (n : Nat) : ∀ c ∈ decimalDigits n, isDig c = true := by
  by_cases hn : n = 0
  · subst hn; decide
  · rw [decimalDigits, if_neg hn]
    exact natDigsAux_all_isDig n n

theorem decimalDigits_ne_nil (n : Nat) : decimalDigits n ≠ [] := by
  by_cases hn : n = 0
  · subst hn; decide
  · rw [decimalDigits, if_neg hn]
    intro h
    have := digitsToNat_natDigsAux n n le_rfl
    rw [h] at this
    simp [digitsToNat] at this
    omega

theorem decimalDigits_length_le {n k : Nat} (hk : 0 < k) (h : n < 10 ^ k) :
    (decimalDigits n).length ≤ k := by
  by_cases hn : n = 0
  · subst hn; simpa [decimalDigits] using hk
  · rw [decimalDigits, if_neg hn]
    exact natDigsAux_length_le n n k le_rfl h

theorem isDig_ne (c x : Char) (hx : isDig x = false) (h : isDig c = true) : c ≠ x := by
  intro he
  subst he
  rw [h] at hx
  cases hx

/-! ## Strip and split lemmas -/

theorem dropWhile_of_forall_not {p : Char → Bool} : ∀ l : List Char,
    (∀ c ∈ l, p c = false) → l.dropWhile p = l := by
  intro l h
  cases l with
  | nil => rfl
  | cons c cs =>
    rw [List.dropWhile_cons, if_neg]
    simp [h c (List.mem_cons_self c cs)]

theorem stripList_of_no_space {l : List Char} (h : ∀ c ∈ l, isPySpace c = false) :
    stripList l = l := by
  unfold stripList
  rw [dropWhile_of_forall_not l h, dropWhile_of_forall_not l.reverse
    (fun c hc => h c (List.mem_reverse.mp hc)), List.reverse_reverse]

theorem splitOnChar_of_not_mem {sep : Char} : ∀ l : List Char,
    (∀ c ∈ l, c ≠ sep) → splitOnChar sep l = [l] := by
  intro l
  induction l with
  | nil => intro _; rfl
  | cons c cs ih =>
    intro h
    rw [splitOnChar, if_neg (h c (List.mem_cons_self c cs)),
      ih (fun x hx => h x (List.mem_cons_of_mem c hx))]

theorem splitOnChar_append {sep : Char} : ∀ a b : List Char,
    (∀ c ∈ a, c ≠ sep) → splitOnChar sep (a ++ sep :: b) = a :: splitOnChar sep b := by
  intro a
  induction a with
  | nil => intro b _; simp [splitOnChar]
  | cons c cs ih =>
    intro b h
    rw [List.cons_append, splitOnChar, if_neg (h c (List.mem_cons_self c cs)),
      ih b (fun x hx => h x (List.mem_cons_of_mem c hx))]

theorem splitExpMarker_of_no_marker : ∀ l : List Char,
    (∀ c ∈ l, c ≠ 'e' ∧ c ≠ 'E') → splitExpMarker l = (l, none) := by
  intro l
  induction l with
  | nil => intro _; rfl
  | cons c cs ih =>
    intro h
    have hc := h c (List.mem_cons_self c cs)
    rw [splitExpMarker, if_neg (by simp [hc.1, hc.2]),
      ih (fun x hx => h x (List.mem_cons_of_mem c hx))]

theorem filter_eq_self_of_forall {p : Char → Bool} {l : List Char}
    (h : ∀ c ∈ l, p c = true) : l.filter p = l :=
  List.filter_eq_self.mpr h

theorem pyTake_of_length_le {n : Nat} {s : String} (h : s.data.length ≤ n) :
    pyTake n s = s := by
  unfold pyTake
  rw [List.take_of_length_le h]

/-! ## Decimal rendering round-trip (fixed-point, two fractional digits) -/

theorem isPySpace_of_isDig {c : Char} (h : isDig c = true) : isPySpace c = false := by
  unfold isPySpace
  have h1 := isDig_ne c ' ' (by decide) h
  have h2 := isDig_ne c '\t' (by decide) h
  have h3 := isDig_ne c '\n' (by decide) h
  have h4 := isDig_ne c '\x0b' (by decide) h
  have h5 := isDig_ne c '\x0c' (by decide) h
  have h6 := isDig_ne c '\r' (by decide) h
  simp [h1, h2, h3, h4, h5, h6]

theorem decimalStrAux_exp_neg2 (m : Nat) :
    decimalStrAux m (-2) =
      if 2 < (decimalDigits m).length then
        (decimalDigits m).take ((decimalDigits m).length - 2) ++
          '.' :: (decimalDigits m).drop ((decimalDigits m).length - 2)
      else '0' :: '.' :: (List.replicate (2 - (decimalDigits m).length) '0' ++ decimalDigits m) := by
  have hlen : 1 ≤ (decimalDigits m).length :=
    List.length_pos.mpr (decimalDigits_ne_nil m)
  unfold decimalStrAux
  rw [if_pos ⟨by omega, by omega⟩, if_neg (by omega : ¬ (-2 : Int) = 0)]
  norm_num
  rfl

theorem decimalStrAux_exp_neg2_chars (m : Nat) :
    ∀ c ∈ decimalStrAux m (-2), isDig c = true ∨ c = '.' := by
  intro c hc
  rw [decimalStrAux_exp_neg2] at hc
  by_cases h2 : 2 < (decimalDigits m).length
  · rw [if_pos h2] at hc
    rcases List.mem_append.mp hc with h | h
    · exact Or.inl (decimalDigits_all_isDig m c (List.take_subset _ _ h))
    · rcases List.mem_cons.mp h with h | h
      · exact Or.inr h
      · exact Or.inl (decimalDigits_all_isDig m c (List.drop_subset _ _ h))
  · rw [if_neg h2] at hc
    rcases List.mem_cons.mp hc with h | h
    · subst h
      exact Or.inl (by decide)
    rcases List.mem_cons.mp h with h | h
    · exact Or.inr h
    rcases List.mem_append.mp h with h | h
    · rw [List.eq_of_mem_replicate h]
      exact Or.inl (by decide)
    · exact Or.inl (decimalDigits_all_isDig m c h)

theorem parseMantissa_point (tk dr : List Char) (htk : tk ≠ [])
    (htkd : ∀ c ∈ tk, isDig c = true) (hdrd : ∀ c ∈ dr, isDig c = true) :
    parseMantissa (tk ++ '.' :: dr) = some ((digitsToNat (tk ++ dr) : Int), -(dr.length : Int)) := by
  unfold parseMantissa
  rw [show splitOnChar '.' (tk ++ '.' :: dr) = [tk, dr] from by
    rw [splitOnChar_append tk dr (fun c hc => isDig_ne c '.' (by decide) (htkd c hc)),
      splitOnChar_of_not_mem dr (fun c hc => isDig_ne c '.' (by decide) (hdrd c hc))]]
  show (if (tk ≠ [] ∨ dr ≠ []) ∧ tk.all isDig ∧ dr.all isDig then
      some ((digitsToNat (tk ++ dr) : Int), -(dr.length : Int)) else none) = _
  rw [if_pos ⟨Or.inl htk, List.all_eq_true.mpr htkd, List.all_eq_true.mpr hdrd⟩]

theorem parseDecimalString_eval {s : String} (c0 : Char) (rest : List Char)
    (hdata : s.data = c0 :: rest) (h1 : c0 ≠ '-') (h2 : c0 ≠ '+')
    (hmark : ∀ c ∈ s.data, c ≠ 'e' ∧ c ≠ 'E')
    {ce : Int × Int} (hm : parseMantissa s.data = some ce) :
    parseDecimalString s = some ⟨ce.1, ce.2⟩ := by
  unfold parseDecimalString
  rw [hdata] at hmark hm ⊢
  rw [List.head?_cons, if_neg (by simp [h1]), if_neg (by simp [h2])]
  simp only [splitExpMarker_of_no_marker _ hmark, hm, one_mul]

theorem decimalStrAux_neg2_ne_nil (m : Nat) : decimalStrAux m (-2) ≠ [] := by
  rw [decimalStrAux_exp_neg2]
  by_cases h2 : 2 < (decimalDigits m).length
  · rw [if_pos h2]
    intro h
    rcases List.append_eq_nil.mp h with ⟨_, h⟩
    cases h
  · rw [if_neg h2]
    intro h
    cases h

theorem parseDecimal_fixed2 (m : Nat) :
    parseDecimalString (String.mk (decimalStrAux m (-2))) = some ⟨(m : Int), -2⟩ := by
  have hall := decimalDigits_all_isDig m
  have hnil := decimalDigits_ne_nil m
  have hlpos : 1 ≤ (decimalDigits m).length := List.length_pos.mpr hnil
  have hmark : ∀ c ∈ decimalStrAux m (-2), c ≠ 'e' ∧ c ≠ 'E' := by
    intro c hc
    rcases decimalStrAux_exp_neg2_chars m c hc with h | h
    · exact ⟨isDig_ne c 'e' (by decide) h, isDig_ne c 'E' (by decide) h⟩
    · subst h
      exact ⟨by decide, by decide⟩
  rw [decimalStrAux_exp_neg2] at hmark ⊢
  by_cases h2 : 2 < (decimalDigits m).length
  · rw [if_pos h2] at hmark ⊢
    obtain ⟨c0, tl, htkc⟩ : ∃ c0 tl,
        (decimalDigits m).take ((decimalDigits m).length - 2) = c0 :: tl := by
      cases htkx : (decimalDigits m).take ((decimalDigits m).length - 2) with
      | nil =>
        exfalso
        have := congrArg List.length htkx
        rw [List.length_take] at this
        simp at this
        omega
      | cons a b => exact ⟨a, b, rfl⟩
    have htkdigs : ∀ c ∈ (decimalDigits m).take ((decimalDigits m).length - 2), isDig c = true :=
      fun c hc => hall c (List.take_subset _ _ hc)
    have hdrdigs : ∀ c ∈ (decimalDigits m).drop ((decimalDigits m).length - 2), isDig c = true :=
      fun c hc => hall c (List.drop_subset _ _ hc)
    have hc0 : isDig c0 = true := htkdigs c0 (by rw [htkc]; exact List.mem_cons_self _ _)
    have hlen : ((decimalDigits m).drop ((decimalDigits m).length - 2)).length = 2 := by
      rw [List.length_drop]
      omega
    have hmant2 : parseMantissa ((decimalDigits m).take ((decimalDigits m).length - 2) ++
        '.' :: (decimalDigits m).drop ((decimalDigits m).length - 2)) =
        some ((m : Int), (-2 : Int)) := by
      rw [parseMantissa_point _ _ (by rw [htkc]; simp) htkdigs hdrdigs,
        List.take_append_drop, digitsToNat_decimalDigits, hlen]
      norm_num
    exact parseDecimalString_eval c0
      (tl ++ '.' :: (decimalDigits m).drop ((decimalDigits m).length - 2))
      (by show _ ++ _ = _; rw [htkc]; simp)
      (isDig_ne c0 '-' (by decide) hc0) (isDig_ne c0 '+' (by decide) hc0)
      hmark hmant2
  · rw [if_neg h2] at hmark ⊢
    have hlen2 : ¬ 2 < (decimalDigits m).length := h2
    have hdrdigs : ∀ c ∈ List.replicate (2 - (decimalDigits m).length) '0' ++ decimalDigits m,
        isDig c = true := by
      intro c hc
      rcases List.mem_append.mp hc with h | h
      · rw [List.eq_of_mem_replicate h]
        decide
      · exact hall c h
    have hmant := parseMantissa_point ['0']
      (List.replicate (2 - (decimalDigits m).length) '0' ++ decimalDigits m)
      (by simp) (by intro c hc; simp at hc; subst hc; decide) hdrdigs
    simp only [List.singleton_append] at hmant
    have hco : digitsToNat ('0' :: (List.replicate (2 - (decimalDigits m).length) '0' ++
        decimalDigits m)) = m := by
      have e1 : ('0' :: (List.replicate (2 - (decimalDigits m).length) '0' ++ decimalDigits m)) =
          List.replicate 1 '0' ++ (List.replicate (2 - (decimalDigits m).length) '0' ++
            decimalDigits m) := by simp
      rw [e1, digitsToNat_replicate_zero, digitsToNat_replicate_zero,
        digitsToNat_decimalDigits]
    have hfl : ((List.replicate (2 - (decimalDigits m).length) '0' ++
        decimalDigits m).length : Int) = 2 := by
      rw [List.length_append, List.length_replicate]
      omega
    rw [hco, hfl] at hmant
    exact parseDecimalString_eval '0'
      ('.' :: (List.replicate (2 - (decimalDigits m).length) '0' ++ decimalDigits m))
      rfl (by decide) (by decide) hmark hmant

theorem parseDecimalString_decimalStr {d : PyDecimal} (h : decimalOk d = true) :
    parseDecimalString (decimalStr d) = some d := by
  obtain ⟨⟨hexp, hge⟩, hle⟩ : (d.exp = -2 ∧ 0 ≤ d.coeff) ∧ d.coeff ≤ 999999999 := by
    simpa [decimalOk] using h
  have hnn : ¬ d.coeff < 0 := by omega
  unfold decimalStr
  rw [if_neg hnn, hexp]
  simp only [List.nil_append]
  rw [parseDecimal_fixed2]
  have hna : ((d.coeff.natAbs : Int)) = d.coeff := Int.natAbs_of_nonneg hge
  rw [hna]
  cases d with
  | mk c e =>
    change e = -2 at hexp
    rw [hexp]

theorem decimalStr_chars {d : PyDecimal} (h : decimalOk d = true) :
    ∀ c ∈ (decimalStr d).data, isDig c = true ∨ c = '.' := by
  obtain ⟨⟨hexp, hge⟩, _⟩ : (d.exp = -2 ∧ 0 ≤ d.coeff) ∧ d.coeff ≤ 999999999 := by
    simpa [decimalOk] using h
  have hnn : ¬ d.coeff < 0 := by omega
  unfold decimalStr
  rw [if_neg hnn, hexp]
  simpa using decimalStrAux_exp_neg2_chars d.coeff.natAbs

theorem decimalStr_ne_empty {d : PyDecimal} (h : decimalOk d = true) :
    decimalStr d ≠ "" := by
  obtain ⟨⟨hexp, hge⟩, _⟩ : (d.exp = -2 ∧ 0 ≤ d.coeff) ∧ d.coeff ≤ 999999999 := by
    simpa [decimalOk] using h
  have hnn : ¬ d.coeff < 0 := by omega
  unfold decimalStr
  rw [if_neg hnn, hexp]
  intro hcontra
  have hd : decimalStrAux d.coeff.natAbs (-2) = [] := by
    have := congrArg String.data hcontra
    simpa using this
  exact decimalStrAux_neg2_ne_nil _ hd

theorem decimalOk_not_neg {d : PyDecimal} (h : decimalOk d = true) :
    d.lt ⟨0, 0⟩ = false := by
  obtain ⟨⟨hexp, hge⟩, _⟩ : (d.exp = -2 ∧ 0 ≤ d.coeff) ∧ d.coeff ≤ 999999999 := by
    simpa [decimalOk] using h
  simp only [PyDecimal.lt, hexp]
  norm_num
  omega

theorem decimalOk_not_large {d : PyDecimal} (h : decimalOk d = true) :
    decimalUpperBound.lt d = false := by
  obtain ⟨⟨hexp, hge⟩, hle⟩ : (d.exp = -2 ∧ 0 ≤ d.coeff) ∧ d.coeff ≤ 999999999 := by
    simpa [decimalOk] using h
  simp only [PyDecimal.lt, decimalUpperBound, hexp]
  norm_num
  omega

theorem removeDollarsCommas_decimalStr {d : PyDecimal} (h : decimalOk d = true) :
    removeDollarsCommas (decimalStr d) = decimalStr d := by
  unfold removeDollarsCommas
  rw [filter_eq_self_of_forall, filter_eq_self_of_forall]
  · intro c hc
    rcases decimalStr_chars h c hc with hd | hd
    · simp [isDig_ne c '$' (by decide) hd]
    · subst hd
      decide
  · intro c hc
    have hc' : c ∈ (decimalStr d).data := List.mem_of_mem_filter hc
    rcases decimalStr_chars h c hc' with hd | hd
    · simp [isDig_ne c ',' (by decide) hd]
    · subst hd
      decide

theorem pyStrip_decimalStr {d : PyDecimal} (h : decimalOk d = true) :
    pyStrip (decimalStr d) = decimalStr d := by
  unfold pyStrip
  rw [stripList_of_no_space]
  intro c hc
  rcases decimalStr_chars h c hc with hd | hd
  · exact isPySpace_of_isDig hd
  · subst hd
    decide

theorem safe_decimal_conversion_decimalStr {d : PyDecimal} (h : decimalOk d = true)
    (fn : String) : safe_decimal_conversion (decimalStr d) fn = .ok d := by
  unfold safe_decimal_conversion
  rw [removeDollarsCommas_decimalStr h, pyStrip_decimalStr h,
    if_neg (decimalStr_ne_empty h), parseDecimalString_decimalStr h]
  simp only [decimalOk_not_neg h, decimalOk_not_large h, Bool.false_eq_true, if_false]

/-! ## Date rendering round-trip -/

theorem zfill_all_isDig {n : Nat} {l : List Char} (h : ∀ c ∈ l, isDig c = true) :
    ∀ c ∈ zfill n l, isDig c = true := by
  intro c hc
  rcases List.mem_append.mp hc with h1 | h1
  · rw [List.eq_of_mem_replicate h1]
    decide
  · exact h c h1

theorem digitsToNat_zfill (n : Nat) (l : List Char) : digitsToNat (zfill n l) = digitsToNat l :=
  digitsToNat_replicate_zero _ _

theorem zfill_length {n : Nat} {l : List Char} (h : l.length ≤ n) : (zfill n l).length = n := by
  rw [zfill, List.length_append, List.length_replicate]
  omega

theorem tryFormat_ymd_eval (a b c : List Char)
    (ha : a ≠ [] ∧ a.length ≤ 4 ∧ ∀ x ∈ a, isDig x = true)
    (hb : b ≠ [] ∧ b.length ≤ 2 ∧ ∀ x ∈ b, isDig x = true)
    (hc : c ≠ [] ∧ c.length ≤ 2 ∧ ∀ x ∈ c, isDig x = true)
    (hv : isValidDate (digitsToNat a) (digitsToNat b) (digitsToNat c) = true) :
    tryFormat '-' 0 (a ++ '-' :: (b ++ '-' :: c)) =
      some ⟨digitsToNat a, digitsToNat b, digitsToNat c⟩ := by
  have hea : a.isEmpty = false := by
    cases a with
    | nil => exact absurd rfl ha.1
    | cons x xs => rfl
  have heb : b.isEmpty = false := by
    cases b with
    | nil => exact absurd rfl hb.1
    | cons x xs => rfl
  have hec : c.isEmpty = false := by
    cases c with
    | nil => exact absurd rfl hc.1
    | cons x xs => rfl
  unfold tryFormat
  rw [splitOnChar_append a _ (fun x hx => isDig_ne x '-' (by decide) (ha.2.2 x hx)),
    splitOnChar_append b _ (fun x hx => isDig_ne x '-' (by decide) (hb.2.2 x hx)),
    splitOnChar_of_not_mem c (fun x hx => isDig_ne x '-' (by decide) (hc.2.2 x hx))]
  simp only [hea, heb, hec, ha.2.1, hb.2.1, hc.2.1, List.all_eq_true.mpr ha.2.2,
    List.all_eq_true.mpr hb.2.2, List.all_eq_true.mpr hc.2.2, hv, Bool.not_false,
    decide_eq_true_eq]
  simp

theorem isValidDate_bounds {y m d : Nat} (h : isValidDate y m d = true) :
    1 ≤ y ∧ y ≤ 9999 ∧ 1 ≤ m ∧ m ≤ 12 ∧ 1 ≤ d ∧ d ≤ 31 := by
  unfold isValidDate at h
  simp only [Bool.and_eq_true, decide_eq_true_eq] at h
  obtain ⟨⟨⟨⟨⟨h1, h2⟩, h3⟩, h4⟩, h5⟩, h6⟩ := h
  have hd : daysInMonth y m ≤ 31 := by
    unfold daysInMonth
    split
    · split <;> omega
    · split <;> omega
  exact ⟨h1, h2, h3, h4, h5, by omega⟩

theorem strfDate_parse {dt : PyDate}
    (h : isValidDate dt.year dt.month dt.day = true) :
    pyParseDateFormats (strfDate dt) = some dt := by
  obtain ⟨hy1, hy2, hm1, hm2, hd1, hd2⟩ := isValidDate_bounds h
  have hylen : (decimalDigits dt.year).length ≤ 4 :=
    decimalDigits_length_le (by norm_num) (by omega)
  have hmlen : (decimalDigits dt.month).length ≤ 2 :=
    decimalDigits_length_le (by norm_num) (by omega)
  have hdlen : (decimalDigits dt.day).length ≤ 2 :=
    decimalDigits_length_le (by norm_num) (by omega)
  have hy : ∀ x ∈ zfill 4 (decimalDigits dt.year), isDig x = true :=
    zfill_all_isDig (decimalDigits_all_isDig _)
  have hm : ∀ x ∈ zfill 2 (decimalDigits dt.month), isDig x = true :=
    zfill_all_isDig (decimalDigits_all_isDig _)
  have hd : ∀ x ∈ zfill 2 (decimalDigits dt.day), isDig x = true :=
    zfill_all_isDig (decimalDigits_all_isDig _)
  have hynil : zfill 4 (decimalDigits dt.year) ≠ [] := by
    intro hx
    have := congrArg List.length hx
    rw [zfill_length hylen] at this
    simp at this
  have hmnil : zfill 2 (decimalDigits dt.month) ≠ [] := by
    intro hx
    have := congrArg List.length hx
    rw [zfill_length hmlen] at this
    simp at this
  have hdnil : zfill 2 (decimalDigits dt.day) ≠ [] := by
    intro hx
    have := congrArg List.length hx
    rw [zfill_length hdlen] at this
    simp at this
  have h1 : tryFormat '-' 0 (strfDate dt).data = some dt := by
    show tryFormat '-' 0 (zfill 4 (decimalDigits dt.year) ++ '-' ::
      (zfill 2 (decimalDigits dt.month) ++ '-' :: zfill 2 (decimalDigits dt.day))) = some dt
    rw [tryFormat_ymd_eval _ _ _
      ⟨hynil, le_of_eq (zfill_length hylen), hy⟩
      ⟨hmnil, le_of_eq (zfill_length hmlen), hm⟩
      ⟨hdnil, le_of_eq (zfill_length hdlen), hd⟩
      (by rw [digitsToNat_zfill, digitsToNat_zfill, digitsToNat_zfill,
        digitsToNat_decimalDigits, digitsToNat_decimalDigits, digitsToNat_decimalDigits]
          exact h)]
    rw [digitsToNat_zfill, digitsToNat_zfill, digitsToNat_zfill,
      digitsToNat_decimalDigits, digitsToNat_decimalDigits, digitsToNat_decimalDigits]
  unfold pyParseDateFormats
  rw [h1]
  rfl

theorem parse_date_strfDate {dt : PyDate} (h : isValidDate dt.year dt.month dt.day = true)
    (ctx : String) : parse_date (strfDate dt) ctx = .ok dt := by
  unfold parse_date
  rw [strfDate_parse h]

/-! ## Integer string round-trip -/

theorem pyIntParse_intStr (i : Int) : pyIntParse (intStr i) = .ok i := by
  have hdigs := decimalDigits_all_isDig i.natAbs
  have hnil := decimalDigits_ne_nil i.natAbs
  have hall : (decimalDigits i.natAbs).all isDig = true := List.all_eq_true.mpr hdigs
  by_cases hneg : i < 0
  · have hdata : (intStr i).data = '-' :: decimalDigits i.natAbs := by
      unfold intStr
      rw [if_pos hneg]
      rfl
    unfold pyIntParse
    rw [hdata, stripList_of_no_space (by
      intro c hc
      rcases List.mem_cons.mp hc with h | h
      · subst h
        decide
      · exact isPySpace_of_isDig (hdigs c h))]
    have e1 : (('-' :: decimalDigits i.natAbs).head? = some '-') = True := by simp
    simp only [e1, if_true, List.tail_cons]
    rw [if_pos ⟨hnil, hall⟩, digitsToNat_decimalDigits]
    congr 1
    omega
  · have hdata : (intStr i).data = decimalDigits i.natAbs := by
      unfold intStr
      rw [if_neg hneg]
      rfl
    obtain ⟨c0, tl, hcons⟩ : ∃ c0 tl, decimalDigits i.natAbs = c0 :: tl := by
      cases hx : decimalDigits i.natAbs with
      | nil => exact absurd hx hnil
      | cons x xs => exact ⟨x, xs, rfl⟩
    have hc0 : isDig c0 = true := hdigs c0 (by rw [hcons]; exact List.mem_cons_self _ _)
    unfold pyIntParse
    rw [hdata, stripList_of_no_space (fun c hc => isPySpace_of_isDig (hdigs c hc)), hcons]
    have e1 : ((c0 :: tl).head? = some '-') = False := by
      simp [isDig_ne c0 '-' (by decide) hc0]
    have e2 : ((c0 :: tl).head? = some '+') = False := by
      simp [isDig_ne c0 '+' (by decide) hc0]
    simp only [e1, e2, if_false]
    rw [if_pos ⟨by simp, by rw [← hcons]; exact hall⟩, ← hcons, digitsToNat_decimalDigits]
    congr 1
    omega

/-! ## Parsing an exported claim row -/

theorem WFClaim_parts {c : ClaimRec} (h : WFClaim c = true) :
    0 < c.id ∧ pyStrip c.patient_name = c.patient_name ∧ c.patient_name ≠ "" ∧
    c.patient_name.data.length ≤ 255 ∧ decimalOk c.billed_amount = true ∧
    decimalOk c.paid_amount = true ∧ validStatuses.contains c.status = true ∧
    pyStrip c.insurer_name = c.insurer_name ∧ c.insurer_name ≠ "" ∧
    c.insurer_name.data.length ≤ 255 ∧
    isValidDate c.discharge_date.year c.discharge_date.month c.discharge_date.day = true ∧
    c.burger_combo_code.data.length ≤ 100 := by
  unfold WFClaim at h
  simp only [Bool.and_eq_true, decide_eq_true_eq, beq_iff_eq, ne_eq] at h
  tauto

theorem except_ok_bind {ε α β : Type} (x : α) (f : α → Except ε β) :
    (Except.ok x >>= f) = f x := rfl

theorem parseClaimRow_export {c : ClaimRec} (h : WFClaim c = true) (ctx : String) :
    parseClaimRow ctx (exportClaimRow c) = .ok c := by
  obtain ⟨hid, hpn1, hpn2, hpn3, hba, hpa, hst, hin1, hin2, hin3, hdt, hbc⟩ := WFClaim_parts h
  have hstmem : c.status ∈ validStatuses := by simpa using hst
  simp [parseClaimRow, getItem, exportClaimRow, rget, List.lookup, except_ok_bind,
    pyIntParse_intStr, parse_date_strfDate hdt, safe_decimal_conversion_decimalStr hba,
    safe_decimal_conversion_decimalStr hpa, hstmem, hpn1, hpn2, hin1, hin2,
    (by omega : ¬ c.id ≤ 0), pyTake_of_length_le hpn3, pyTake_of_length_le hin3,
    pyTake_of_length_le hbc, pure]
  rw [if_neg (by omega)]
  rfl

/-! ## Fold lemmas for the import loops -/

theorem importRowsAux_induct (step : Nat → RawRow → Store × Results → Store × Results)
    (P : Store × Results → Prop) (hstep : ∀ k r a, P a → P (step k r a)) :
    ∀ rows k acc, P acc → P (importRowsAux step k rows acc) := by
  intro rows
  induction rows with
  | nil => intro k acc h; exact h
  | cons r rs ih => intro k acc h; exact ih (k + 1) (step k r acc) (hstep k r acc h)

theorem applyClaim_flags (append : Bool) (c : ClaimRec) (acc : Store × Results) :
    (applyClaim append c acc).1.flags = acc.1.flags ∧
    (applyClaim append c acc).1.details = acc.1.details ∧
    (applyClaim append c acc).2.errors = acc.2.errors ∧
    (applyClaim append c acc).2.details_created = acc.2.details_created ∧
    (applyClaim append c acc).2.details_updated = acc.2.details_updated := by
  unfold applyClaim
  cases acc.1.findClaim c.id with
  | none => exact ⟨rfl, rfl, rfl, rfl, rfl⟩
  | some old =>
    by_cases h : append = true
    · rw [h]
      simp
    · rw [Bool.not_eq_true] at h
      rw [h]
      exact ⟨rfl, rfl, rfl, rfl, rfl⟩

theorem processClaimRow_flags (append : Bool) (ctx : String) (row : RawRow)
    (acc : Store × Results) :
    (processClaimRow append ctx row acc).1.flags = acc.1.flags ∧
    (processClaimRow append ctx row acc).1.details = acc.1.details ∧
    (processClaimRow append ctx row acc).2.details_created = acc.2.details_created ∧
    (processClaimRow append ctx row acc).2.details_updated = acc.2.details_updated := by
  unfold processClaimRow
  cases parseClaimRow ctx row with
  | error e => exact ⟨rfl, rfl, rfl, rfl⟩
  | ok c =>
    have h := applyClaim_flags append c acc
    exact ⟨h.1, h.2.1, h.2.2.2.1, h.2.2.2.2⟩

theorem processDetailRow_frame (append : Bool) (ctx : String) (row : RawRow)
    (acc : Store × Results) :
    (processDetailRow append ctx row acc).1.claims = acc.1.claims ∧
    (processDetailRow append ctx row acc).1.flags = acc.1.flags ∧
    (processDetailRow append ctx row acc).2.claims_created = acc.2.claims_created ∧
    (processDetailRow append ctx row acc).2.claims_updated = acc.2.claims_updated := by
  unfold processDetailRow
  cases getItem row "claim_id" with
  | error e => exact ⟨rfl, rfl, rfl, rfl⟩
  | ok cidStr =>
    simp only [except_ok_bind]
    cases pyIntParse cidStr with
    | error e => exact ⟨rfl, rfl, rfl, rfl⟩
    | ok cid =>
      simp only [except_ok_bind]
      cases acc.1.findClaim cid with
      | none => exact ⟨rfl, rfl, rfl, rfl⟩
      | some cl =>
        cases getItem row "cpt_codes" with
        | error e => exact ⟨rfl, rfl, rfl, rfl⟩
        | ok cpt =>
          simp only [except_ok_bind]
          cases acc.1.findDetail cid with
          | none => exact ⟨rfl, rfl, rfl, rfl⟩
          | some dd =>
            by_cases h : append = true
            · rw [h]
              exact ⟨rfl, rfl, rfl, rfl⟩
            · rw [Bool.not_eq_true] at h
              rw [h]
              exact ⟨rfl, rfl, rfl, rfl⟩

theorem parseClaimRow_ctx (ctx ctx' : String) (row : RawRow) :
    (parseClaimRow ctx row).toOption = (parseClaimRow ctx' row).toOption := by
  unfold parseClaimRow
  cases h1 : getItem row "id" with
  | error e => rfl
  | ok idStr =>
    simp only [except_ok_bind]
    cases h2 : pyIntParse idStr with
    | error e => rfl
    | ok claim_id =>
      simp only [except_ok_bind]
      by_cases h3 : claim_id ≤ 0
      · simp only [if_pos h3]
        rfl
      · simp only [if_neg h3]
        cases h4 : getItem row "discharge_date" with
        | error e => rfl
        | ok dateStr =>
          simp only [except_ok_bind]
          unfold parse_date
          cases h5 : pyParseDateFormats dateStr with
          | none => rfl
          | some dt => rfl

theorem processClaimRow_ctx (append : Bool) (ctx ctx' : String) (row : RawRow) (st : Store)
    (res res' : Results)
    (e1 : res.claims_created = res'.claims_created)
    (e2 : res.claims_updated = res'.claims_updated)
    (e3 : res.details_created = res'.details_created)
    (e4 : res.details_updated = res'.details_updated) :
    (processClaimRow append ctx row (st, res)).1 = (processClaimRow append ctx' row (st, res')).1 ∧
    (processClaimRow append ctx row (st, res)).2.claims_created =
      (processClaimRow append ctx' row (st, res')).2.claims_created ∧
    (processClaimRow append ctx row (st, res)).2.claims_updated =
      (processClaimRow append ctx' row (st, res')).2.claims_updated ∧
    (processClaimRow append ctx row (st, res)).2.details_created =
      (processClaimRow append ctx' row (st, res')).2.details_created ∧
    (processClaimRow append ctx row (st, res)).2.details_updated =
      (processClaimRow append ctx' row (st, res')).2.details_updated := by
  have hopt := parseClaimRow_ctx ctx ctx' row
  unfold processClaimRow
  cases h : parseClaimRow ctx row with
  | error e =>
    cases h' : parseClaimRow ctx' row with
    | error e' =>
      simp [addError, e1, e2, e3, e4]
    | ok c' =>
      rw [h, h'] at hopt
      simp [Except.toOption] at hopt
  | ok c =>
    cases h' : parseClaimRow ctx' row with
    | error e' =>
      rw [h, h'] at hopt
      simp [Except.toOption] at hopt
    | ok c' =>
      rw [h, h'] at hopt
      simp only [Except.toOption, Option.some.injEq] at hopt
      subst hopt
      unfold applyClaim
      simp only []
      cases st.findClaim c.id with
      | none => simp [e1, e2, e3, e4]
      | some old =>
        by_cases ha : append = true
        · rw [ha]
          simp [e1, e2, e3, e4]
        · rw [Bool.not_eq_true] at ha
          rw [ha]
          simp [e1, e2, e3, e4]

theorem importClaimsRows_pair (append : Bool) (ctx ctx' : Nat → String) : ∀ rows k k' st res res',
    res.claims_created = res'.claims_created →
    res.claims_updated = res'.claims_updated →
    res.details_created = res'.details_created →
    res.details_updated = res'.details_updated →
    (importRowsAux (fun k r a => processClaimRow append (ctx k) r a) k rows (st, res)).1 =
      (importRowsAux (fun k r a => processClaimRow append (ctx' k) r a) k' rows (st, res')).1 ∧
    (importRowsAux (fun k r a => processClaimRow append (ctx k) r a) k rows (st, res)).2.claims_created =
      (importRowsAux (fun k r a => processClaimRow append (ctx' k) r a) k' rows (st, res')).2.claims_created ∧
    (importRowsAux (fun k r a => processClaimRow append (ctx k) r a) k rows (st, res)).2.claims_updated =
      (importRowsAux (fun k r a => processClaimRow append (ctx' k) r a) k' rows (st, res')).2.claims_updated ∧
    (importRowsAux (fun k r a => processClaimRow append (ctx k) r a) k rows (st, res)).2.details_created =
      (importRowsAux (fun k r a => processClaimRow append (ctx' k) r a) k' rows (st, res')).2.details_created ∧
    (importRowsAux (fun k r a => processClaimRow append (ctx k) r a) k rows (st, res)).2.details_updated =
      (importRowsAux (fun k r a => processClaimRow append (ctx' k) r a) k' rows (st, res')).2.details_updated := by
  intro rows
  induction rows with
  | nil =>
    intro k k' st res res' e1 e2 e3 e4
    exact ⟨rfl, e1, e2, e3, e4⟩
  | cons r rs ih =>
    intro k k' st res res' e1 e2 e3 e4
    have hstep := processClaimRow_ctx append (ctx k) (ctx' k') r st res res' e1 e2 e3 e4
    simp only [importRowsAux]
    rcases hX : processClaimRow append (ctx k) r (st, res) with ⟨st1, r1⟩
    rcases hY : processClaimRow append (ctx' k') r (st, res') with ⟨st2, r2⟩
    rw [hX, hY] at hstep
    have h1 : st1 = st2 := hstep.1
    subst h1
    exact ih (k + 1) (k' + 1) st1 r1 r2 hstep.2.1 hstep.2.2.1 hstep.2.2.2.1 hstep.2.2.2.2

theorem importClaimsRows_errors (append : Bool) (ctx : Nat → String) : ∀ rows k st res,
    (importRowsAux (fun k r a => processClaimRow append (ctx k) r a) k rows (st, res)).2.errors =
      res.errors ++ claimRowErrors ctx k rows := by
  intro rows
  induction rows with
  | nil =>
    intro k st res
    simp [importRowsAux, claimRowErrors]
  | cons r rs ih =>
    intro k st res
    simp only [importRowsAux, claimRowErrors]
    rcases hX : processClaimRow append (ctx k) r (st, res) with ⟨st1, r1⟩
    have hE : r1.errors = res.errors ++ (match claimRowError (ctx k) r with
        | some e => [e]
        | none => []) := by
      unfold processClaimRow at hX
      unfold claimRowError
      cases hp : parseClaimRow (ctx k) r with
      | error e =>
        rw [hp] at hX
        injection hX with h1 h2
        rw [← h2]
        simp [addError]
      | ok c =>
        rw [hp] at hX
        have hX' : applyClaim append c (st, res) = (st1, r1) := hX
        have ha := (applyClaim_flags append c (st, res)).2.2.1
        rw [hX'] at ha
        have ha' : r1.errors = res.errors := ha
        rw [ha']
        simp
    rw [ih (k + 1) st1 r1, hE, List.append_assoc]

/-- C10: for at most 50,000 records with string field values, the
pipe-delimited and the JSON claims importers produce the same final store
and the same four counters from any starting store in either mode, and
their error lists are the same per-row error function rendered with the
respective positional tags ("Row n" from line 2 / "Item n" from 1). -/
theorem C10_csv_json_equivalence (st : Store) (rows : List RawRow) (append : Bool)
    (hlen : rows.length ≤ 50000) :
    (importClaimsCsvRows rows append (st, emptyResults)).1 =
      (importClaimsJsonRows rows append (st, emptyResults)).1 ∧
    (importClaimsCsvRows rows append (st, emptyResults)).2.claims_created =
      (importClaimsJsonRows rows append (st, emptyResults)).2.claims_created ∧
    (importClaimsCsvRows rows append (st, emptyResults)).2.claims_updated =
      (importClaimsJsonRows rows append (st, emptyResults)).2.claims_updated ∧
    (importClaimsCsvRows rows append (st, emptyResults)).2.details_created =
      (importClaimsJsonRows rows append (st, emptyResults)).2.details_created ∧
    (importClaimsCsvRows rows append (st, emptyResults)).2.details_updated =
      (importClaimsJsonRows rows append (st, emptyResults)).2.details_updated ∧
    (importClaimsCsvRows rows append (st, emptyResults)).2.errors =
      claimRowErrors csvCtx 0 rows ∧
    (importClaimsJsonRows rows append (st, emptyResults)).2.errors =
      claimRowErrors jsonCtx 0 rows := by
  have hnot : ¬ rows.length > 50000 := by omega
  unfold importClaimsCsvRows importClaimsJsonRows
  rw [if_neg hnot, if_neg hnot]
  unfold importClaimsRows
  have hp := importClaimsRows_pair append csvCtx jsonCtx rows 0 0 st emptyResults emptyResults
    rfl rfl rfl rfl
  have he1 := importClaimsRows_errors append csvCtx rows 0 st emptyResults
  have he2 := importClaimsRows_errors append jsonCtx rows 0 st emptyResults
  exact ⟨hp.1, hp.2.1, hp.2.2.1, hp.2.2.2.1, hp.2.2.2.2,
    by simpa using he1, by simpa using he2⟩

/-- Closed instance of C10_csv_json_equivalence. -/
theorem C10_csv_json_equivalence_witness :
    ([([("id", "1")] : RawRow)].length ≤ 50000) ∧
    (importClaimsCsvRows [[("id", "1")]] true (emptyStore, emptyResults)).1 =
      (importClaimsJsonRows [[("id", "1")]] true (emptyStore, emptyResults)).1 :=
  ⟨by decide, (C10_csv_json_equivalence emptyStore [[("id", "1")]] true (by decide)).1⟩

/-! ## The details importers have no row ceiling (C2) -/

theorem processDetailRow_notfound (append : Bool) (ctx : String) {st : Store} (res : Results)
    (h : st.findClaim 1 = none) :
    processDetailRow append ctx [("claim_id", "1")] (st, res) =
      (st, addError res (ctx ++ ": " ++ ("Claim " ++ intStr 1 ++ " not found"))) := by
  unfold processDetailRow
  rw [show getItem [("claim_id", "1")] "claim_id" = Except.ok "1" from by decide]
  simp only [except_ok_bind]
  rw [show pyIntParse "1" = Except.ok 1 from by decide]
  simp only [except_ok_bind]
  rw [h]

theorem detailsRows_notfound : ∀ n k (st : Store) res, st.findClaim 1 = none →
    importRowsAux (fun k r a => processDetailRow true (csvCtx k) r a) k
      (List.replicate n [("claim_id", "1")]) (st, res) =
      (st, { res with errors := res.errors ++
        (List.range' k n).map (fun j => csvCtx j ++ ": " ++ ("Claim " ++ intStr 1 ++ " not found")) }) := by
  intro n
  induction n with
  | zero =>
    intro k st res h
    simp [importRowsAux]
  | succ n ih =>
    intro k st res h
    rw [List.replicate_succ]
    simp only [importRowsAux]
    rw [processDetailRow_notfound true (csvCtx k) res h, ih (k + 1) st _ h]
    rw [List.range'_succ, List.map_cons]
    simp [addError]

/-- C2 counterexample: feeding 50,001 details rows that all reference a
missing claim to the details importer processes every one of the 50,001
rows - the 50,001st row (positional tag "Row 50002") receives its own
per-row outcome, the error list has 50,001 entries, and no row-ceiling
summary error is ever appended.  The details importers have no ceiling. -/
theorem C2_counterexample :
    (importDetailsRows true csvCtx (List.replicate 50001 [("claim_id", "1")])
      (emptyStore, emptyResults)).2.errors.length = 50001 ∧
    (csvCtx 50000 ++ ": " ++ ("Claim " ++ intStr 1 ++ " not found")) ∈
      (importDetailsRows true csvCtx (List.replicate 50001 [("claim_id", "1")])
        (emptyStore, emptyResults)).2.errors ∧
    csvCtx 50000 = "Row 50002" ∧
    csvLimitMsg ∉ (importDetailsRows true csvCtx (List.replicate 50001 [("claim_id", "1")])
      (emptyStore, emptyResults)).2.errors := by
  have hmain := detailsRows_notfound 50001 0 emptyStore emptyResults rfl
  have hErr : (importDetailsRows true csvCtx (List.replicate 50001 [("claim_id", "1")])
      (emptyStore, emptyResults)).2.errors =
      (List.range' 0 50001).map
        (fun j => csvCtx j ++ ": " ++ ("Claim " ++ intStr 1 ++ " not found")) := by
    unfold importDetailsRows
    rw [hmain]
    simp [emptyResults]
  refine ⟨?_, ?_, by decide, ?_⟩
  · rw [hErr, List.length_map, List.length_range']
  · rw [hErr]
    exact List.mem_map.mpr ⟨50000, by
      rw [List.mem_range'_1]
      omega, rfl⟩
  · rw [hErr]
    intro hmem
    rcases List.mem_map.mp hmem with ⟨j, _, heq⟩
    have hR : (csvCtx j ++ ": " ++ ("Claim " ++ intStr 1 ++ " not found")).data.head? =
        some 'R' := by
      unfold csvCtx
      rw [String.data_append, String.data_append, String.data_append,
        show ("Row " : String).data = 'R' :: ['o', 'w', ' '] from rfl]
      rfl
    rw [heq] at hR
    have hF : (csvLimitMsg).data.head? = some 'F' := by decide
    rw [hR] at hF
    cases hF

/-- C2 (amended): the 50,000-row ceiling governs the claims importers only.
For both claims formats, a file of more than 50,000 records produces the
same store and counters as importing just its first 50,000 records; the CSV
importer appends one summary error after them and the JSON importer
prepends it; remaining rows are ignored and processed rows are kept.  The
details importers have no ceiling (see the counterexample). -/
theorem C2_claims_row_ceiling (st : Store) (rows : List RawRow) (append : Bool)
    (hlen : rows.length > 50000) :
    (importClaimsCsvRows rows append (st, emptyResults)).1 =
      (importClaimsCsvRows (rows.take 50000) append (st, emptyResults)).1 ∧
    (importClaimsCsvRows rows append (st, emptyResults)).2.claims_created =
      (importClaimsCsvRows (rows.take 50000) append (st, emptyResults)).2.claims_created ∧
    (importClaimsCsvRows rows append (st, emptyResults)).2.claims_updated =
      (importClaimsCsvRows (rows.take 50000) append (st, emptyResults)).2.claims_updated ∧
    (importClaimsCsvRows rows append (st, emptyResults)).2.errors =
      (importClaimsCsvRows (rows.take 50000) append (st, emptyResults)).2.errors ++
        [csvLimitMsg] ∧
    (importClaimsJsonRows rows append (st, emptyResults)).1 =
      (importClaimsJsonRows (rows.take 50000) append (st, emptyResults)).1 ∧
    (importClaimsJsonRows rows append (st, emptyResults)).2.claims_created =
      (importClaimsJsonRows (rows.take 50000) append (st, emptyResults)).2.claims_created ∧
    (importClaimsJsonRows rows append (st, emptyResults)).2.claims_updated =
      (importClaimsJsonRows (rows.take 50000) append (st, emptyResults)).2.claims_updated ∧
    (importClaimsJsonRows rows append (st, emptyResults)).2.errors =
      jsonLimitMsg :: (importClaimsJsonRows (rows.take 50000) append (st, emptyResults)).2.errors := by
  have htail : ¬ (rows.take 50000).length > 50000 := by
    rw [List.length_take]
    omega
  unfold importClaimsCsvRows importClaimsJsonRows
  rw [if_pos hlen, if_pos hlen, if_neg htail, if_neg htail]
  unfold importClaimsRows
  refine ⟨rfl, rfl, rfl, rfl, ?_, ?_, ?_, ?_⟩
  · exact (importClaimsRows_pair append jsonCtx jsonCtx (rows.take 50000) 0 0 st
      (addError emptyResults jsonLimitMsg) emptyResults rfl rfl rfl rfl).1
  · exact (importClaimsRows_pair append jsonCtx jsonCtx (rows.take 50000) 0 0 st
      (addError emptyResults jsonLimitMsg) emptyResults rfl rfl rfl rfl).2.1
  · exact (importClaimsRows_pair append jsonCtx jsonCtx (rows.take 50000) 0 0 st
      (addError emptyResults jsonLimitMsg) emptyResults rfl rfl rfl rfl).2.2.1
  · rw [importClaimsRows_errors append jsonCtx (rows.take 50000) 0 st
      (addError emptyResults jsonLimitMsg),
      importClaimsRows_errors append jsonCtx (rows.take 50000) 0 st emptyResults]
    simp [addError, emptyResults]

/-- A concrete 50,001-row claims input for the ceiling witness. -/
def c2Rows : List RawRow := List.replicate 50001 [("id", "1")]

/-- Closed instance of C2_claims_row_ceiling at a 50,001-row input. -/
theorem C2_claims_row_ceiling_witness :
    c2Rows.length > 50000 ∧
    (importClaimsCsvRows c2Rows true (emptyStore, emptyResults)).2.errors =
      (importClaimsCsvRows (c2Rows.take 50000) true (emptyStore, emptyResults)).2.errors ++
        [csvLimitMsg] :=
  ⟨by rw [c2Rows, List.length_replicate]; omega,
   (C2_claims_row_ceiling emptyStore c2Rows true
     (by rw [c2Rows, List.length_replicate]; omega)).2.2.2.1⟩

/-! ## Re-importing an export (C3) -/

theorem findClaim_append_single_none {st : Store} {c : ClaimRec} {i : Int}
    (h1 : st.findClaim i = none) (h2 : c.id ≠ i) :
    ({ st with claims := st.claims ++ [c] } : Store).findClaim i = none := by
  unfold Store.findClaim at *
  rw [List.find?_append, h1]
  simp [h2]

theorem processClaimRow_export_create (append : Bool) (ctx : String) {st : Store} (res : Results)
    {c : ClaimRec} (hwf : WFClaim c = true) (hnone : st.findClaim c.id = none) :
    processClaimRow append ctx (exportClaimRow c) (st, res) =
      ({ st with claims := st.claims ++ [c] },
       { res with claims_created := res.claims_created + 1 }) := by
  unfold processClaimRow
  rw [parseClaimRow_export hwf]
  show applyClaim append c (st, res) = _
  unfold applyClaim
  have hnone' : ((st, res) : Store × Results).1.findClaim c.id = none := hnone
  rw [hnone']

theorem importClaims_export_fold (append : Bool) (ctx : Nat → String) : ∀ cs k (st : Store) res,
    (∀ c ∈ cs, WFClaim c = true) →
    (∀ c ∈ cs, st.findClaim c.id = none) →
    (cs.map ClaimRec.id).Nodup →
    importRowsAux (fun k r a => processClaimRow append (ctx k) r a) k (cs.map exportClaimRow)
      (st, res) =
      ({ st with claims := st.claims ++ cs },
       { res with claims_created := res.claims_created + cs.length }) := by
  intro cs
  induction cs with
  | nil =>
    intro k st res _ _ _
    simp [importRowsAux]
  | cons c cs ih =>
    intro k st res hwf hnone hnodup
    rw [List.map_cons]
    simp only [importRowsAux]
    rw [processClaimRow_export_create append (ctx k) res (hwf c (List.mem_cons_self c cs))
      (hnone c (List.mem_cons_self c cs))]
    rw [List.map_cons, List.nodup_cons] at hnodup
    rw [ih (k + 1) _ _ (fun x hx => hwf x (List.mem_cons_of_mem c hx))
      (fun x hx => findClaim_append_single_none (hnone x (List.mem_cons_of_mem c hx))
        (by
          intro he
          exact hnodup.1 (he ▸ List.mem_map_of_mem ClaimRec.id hx)))
      hnodup.2]
    simp only [List.append_assoc, List.singleton_append, List.length_cons]
    have : res.claims_created + 1 + cs.length = res.claims_created + (cs.length + 1) := by omega
    rw [this]

theorem findDetail_append_single_none {st : Store} {d : DetailRec} {i : Int}
    (h1 : st.findDetail i = none) (h2 : d.claim_id ≠ i) :
    ({ st with details := st.details ++ [d] } : Store).findDetail i = none := by
  unfold Store.findDetail at *
  rw [List.find?_append, h1]
  simp [h2]

theorem processDetailRow_export_create (append : Bool) (ctx : String) {st : Store} (res : Results)
    {d : DetailRec} (hc : (st.findClaim d.claim_id).isSome = true)
    (hdr : d.denial_reason ≠ some "") (hnd : st.findDetail d.claim_id = none) :
    processDetailRow append ctx (exportDetailRow d) (st, res) =
      ({ st with details := st.details ++ [d] },
       { res with details_created := res.details_created + 1 }) := by
  have hdenial : (if rget (exportDetailRow d) "denial_reason" "" = "" then (none : Option String)
      else some (rget (exportDetailRow d) "denial_reason" "")) = d.denial_reason := by
    have hr : rget (exportDetailRow d) "denial_reason" "" = d.denial_reason.getD "" := by
      simp [rget, exportDetailRow, List.lookup]
    rw [hr]
    cases hdn : d.denial_reason with
    | none => simp
    | some sVal =>
      have hne : sVal ≠ "" := by
        rw [hdn] at hdr
        simpa using hdr
      simp [Option.getD, hne]
  obtain ⟨cl, hcl⟩ := Option.isSome_iff_exists.mp hc
  unfold processDetailRow
  rw [show getItem (exportDetailRow d) "claim_id" = Except.ok (intStr d.claim_id) from by
    simp [getItem, exportDetailRow, List.lookup]]
  simp only [except_ok_bind]
  rw [pyIntParse_intStr]
  simp only [except_ok_bind]
  have hcl' : ((st, res) : Store × Results).1.findClaim d.claim_id = some cl := hcl
  rw [hcl']
  rw [show getItem (exportDetailRow d) "cpt_codes" = Except.ok d.cpt_codes from by
    simp [getItem, exportDetailRow, List.lookup]]
  simp only [except_ok_bind]
  have hnd' : ((st, res) : Store × Results).1.findDetail d.claim_id = none := hnd
  rw [hnd']
  rw [hdenial]
  rfl

theorem importDetails_export_fold (append : Bool) (ctx : Nat → String) : ∀ ds k (st : Store) res,
    (∀ d ∈ ds, (st.findClaim d.claim_id).isSome = true ∧ d.denial_reason ≠ some "" ∧
      st.findDetail d.claim_id = none) →
    (ds.map DetailRec.claim_id).Nodup →
    importRowsAux (fun k r a => processDetailRow append (ctx k) r a) k (ds.map exportDetailRow)
      (st, res) =
      ({ st with details := st.details ++ ds },
       { res with details_created := res.details_created + ds.length }) := by
  intro ds
  induction ds with
  | nil =>
    intro k st res _ _
    simp [importRowsAux]
  | cons d ds ih =>
    intro k st res hall hnodup
    rw [List.map_cons]
    simp only [importRowsAux]
    obtain ⟨hc, hdr, hnd⟩ := hall d (List.mem_cons_self d ds)
    rw [processDetailRow_export_create append (ctx k) res hc hdr hnd]
    rw [List.map_cons, List.nodup_cons] at hnodup
    rw [ih (k + 1) _ _ (fun x hx => by
      obtain ⟨hc', hdr', hnd'⟩ := hall x (List.mem_cons_of_mem d hx)
      refine ⟨hc', hdr', findDetail_append_single_none hnd' ?_⟩
      intro he
      exact hnodup.1 (he ▸ List.mem_map_of_mem DetailRec.claim_id hx))
      hnodup.2]
    simp only [List.append_assoc, List.singleton_append, List.length_cons]
    have : res.details_created + 1 + ds.length = res.details_created + (ds.length + 1) := by omega
    rw [this]

theorem find?_detail_self : ∀ (l : List DetailRec) (d : DetailRec), d ∈ l →
    (l.map DetailRec.claim_id).Nodup →
    l.find? (fun x => x.claim_id == d.claim_id) = some d := by
  intro l
  induction l with
  | nil =>
    intro d h
    cases h
  | cons x xs ih =>
    intro d hmem hnodup
    rw [List.map_cons, List.nodup_cons] at hnodup
    rcases List.mem_cons.mp hmem with he | hm
    · subst he
      rw [List.find?_cons_of_pos _ (by simp)]
    · have hne : x.claim_id ≠ d.claim_id := by
        intro he
        exact hnodup.1 (he ▸ List.mem_map_of_mem DetailRec.claim_id hm)
      rw [List.find?_cons_of_neg _ (by simp [hne])]
      exact ih d hm hnodup.2

theorem mem_dsJ_iff {st : Store} (hwf : WFStore st) (d : DetailRec) :
    d ∈ st.claims.filterMap (fun c => st.findDetail c.id) ↔ d ∈ st.details := by
  obtain ⟨_, _, hd, hdn, _⟩ := hwf
  constructor
  · intro h
    rcases List.mem_filterMap.mp h with ⟨c, _, hfd⟩
    exact List.mem_of_find?_eq_some hfd
  · intro h
    have hwfd := hd d h
    unfold WFDetail at hwfd
    simp only [Bool.and_eq_true] at hwfd
    obtain ⟨c, hfc⟩ := Option.isSome_iff_exists.mp hwfd.1
    have hcmem : c ∈ st.claims := List.mem_of_find?_eq_some hfc
    have hcid : c.id = d.claim_id := by
      have := List.find?_some hfc
      simpa using this
    refine List.mem_filterMap.mpr ⟨c, hcmem, ?_⟩
    show st.details.find? (fun x => x.claim_id == c.id) = some d
    rw [hcid]
    exact find?_detail_self st.details d h hdn

theorem dsJ_claimIds (st : Store) : ∀ l : List ClaimRec,
    (l.filterMap (fun c => st.findDetail c.id)).map DetailRec.claim_id =
      (l.filter (fun c => (st.findDetail c.id).isSome)).map ClaimRec.id := by
  intro l
  induction l with
  | nil => rfl
  | cons c cs ih =>
    cases hf : st.findDetail c.id with
    | none => simp [List.filterMap_cons, List.filter_cons, hf, ih]
    | some d =>
      have hdc : d.claim_id = c.id := by simpa using List.find?_some hf
      simp [List.filterMap_cons, List.filter_cons, hf, ih, hdc]

theorem dsJ_ids_nodup {st : Store} (hwf : WFStore st) :
    ((st.claims.filterMap (fun c => st.findDetail c.id)).map DetailRec.claim_id).Nodup := by
  rw [dsJ_claimIds]
  exact hwf.2.1.sublist ((List.filter_sublist _).map _)

theorem dsJ_perm {st : Store} (hwf : WFStore st) :
    (st.claims.filterMap (fun c => st.findDetail c.id)).Perm st.details := by
  refine (List.perm_ext_iff_of_nodup ?_ ?_).mpr (fun d => mem_dsJ_iff hwf d)
  · exact (dsJ_ids_nodup hwf).of_map
  · exact hwf.2.2.2.1.of_map

def exportClaimsHeader : List String :=
  ["id", "patient_name", "billed_amount", "paid_amount", "status", "insurer_name",
   "discharge_date", "burger_combo_code"]

/-- The exported claims data packaged as an uploadable file: the CSV view is
the claims rows of export_claims_to_csv, the JSON view the claim dicts of
export_claims_to_json (both emit the same field mapping per claim). -/
def exportedClaimsFile (st : Store) : UFile :=
  { size := 0, name := "claims_export.csv",
    csvContent := .ok (some exportClaimsHeader, (export_claims_to_csv st).1),
    jsonContent := .ok (export_claims_to_json st).1 }

/-- The exported details data packaged as an uploadable file. -/
def exportedDetailsFile (st : Store) : UFile :=
  { size := 0, name := "claim_details_export.csv",
    csvContent := .ok (some ["claim_id", "cpt_codes", "denial_reason"],
      (export_claims_to_csv st).2),
    jsonContent := .ok (export_claims_to_json st).2 }

theorem import_data_ok {st : Store} {cf : UFile} {df : Option UFile} {ft : FileType}
    {op : Operation} {pr : Store × Results}
    (h1 : ¬ cf.size > MAX_FILE_SIZE)
    (h2 : ∀ f, df = some f → ¬ f.size > MAX_FILE_SIZE)
    (hb : importBody st cf df ft op = .ok pr) :
    import_data st cf df ft op = (pr.1, .ok pr.2) := by
  have hvc : validate_file cf = Except.ok () := by
    unfold validate_file
    rw [if_neg h1]
  cases df with
  | none =>
    unfold import_data
    rw [hvc, hb]
  | some f =>
    have hvf : validate_file f = Except.ok () := by
      unfold validate_file
      rw [if_neg (h2 f rfl)]
    unfold import_data
    rw [hvc]
    rw [show (match some f with
              | some df => validate_file df
              | none => Except.ok ()) = validate_file f from rfl, hvf, hb]

theorem import_data_body_error {st : Store} {cf : UFile} {df : Option UFile} {ft : FileType}
    {op : Operation} {e : String}
    (h1 : ¬ cf.size > MAX_FILE_SIZE)
    (h2 : ∀ f, df = some f → ¬ f.size > MAX_FILE_SIZE)
    (hb : importBody st cf df ft op = .error e) :
    import_data st cf df ft op = (st, .error ("Import failed: " ++ e)) := by
  have hvc : validate_file cf = Except.ok () := by
    unfold validate_file
    rw [if_neg h1]
  cases df with
  | none =>
    unfold import_data
    rw [hvc, hb]
  | some f =>
    have hvf : validate_file f = Except.ok () := by
      unfold validate_file
      rw [if_neg (h2 f rfl)]
    unfold import_data
    rw [hvc]
    rw [show (match some f with
              | some df => validate_file df
              | none => Except.ok ()) = validate_file f from rfl, hvf, hb]

theorem C3_body_csv (st : Store) (hwc : ∀ c ∈ st.claims, WFClaim c = true)
    (hcn : (st.claims.map ClaimRec.id).Nodup)
    (hwd : ∀ d ∈ st.details, WFDetail st d = true)
    (hdn : (st.details.map DetailRec.claim_id).Nodup)
    (hlen : st.claims.length ≤ 50000) :
    importBody st (exportedClaimsFile st) (some (exportedDetailsFile st)) .csv .overwrite =
      .ok (⟨st.claims, st.details, []⟩, ⟨st.claims.length, 0, st.details.length, 0, []⟩) := by
  have hlenrows : ¬ (st.claims.map exportClaimRow).length > 50000 := by
    rw [List.length_map]
    omega
  have hdet_props : ∀ d ∈ st.details,
      ((⟨st.claims, [], []⟩ : Store).findClaim d.claim_id).isSome = true ∧
      d.denial_reason ≠ some "" ∧ (⟨st.claims, [], []⟩ : Store).findDetail d.claim_id = none := by
    intro d hd
    have h := hwd d hd
    unfold WFDetail at h
    simp only [Bool.and_eq_true, decide_eq_true_eq] at h
    exact ⟨h.1, h.2, rfl⟩
  unfold importBody exportedClaimsFile exportedDetailsFile export_claims_to_csv
  simp only [except_ok_bind]
  rw [show (decide (Operation.overwrite = Operation.add)) = false from rfl, if_true,
    show deleteAllClaims (deleteAllDetails st) = emptyStore from rfl]
  unfold importClaimsCsvRows
  rw [if_neg hlenrows]
  unfold importClaimsRows
  rw [importClaims_export_fold false csvCtx st.claims 0 emptyStore emptyResults hwc
    (fun c _ => rfl) hcn]
  simp only [emptyStore, emptyResults, List.nil_append, Nat.zero_add]
  unfold importDetailsRows
  rw [importDetails_export_fold false csvCtx st.details 0 ⟨st.claims, [], []⟩
    ⟨st.claims.length, 0, 0, 0, []⟩ hdet_props hdn]
  simp only [List.nil_append, Nat.zero_add]
  rfl

theorem C3_body_json (st : Store) (hwf : WFStore st) :
    importBody st (exportedClaimsFile st) (some (exportedDetailsFile st)) .json .overwrite =
      .ok (⟨st.claims, st.claims.filterMap (fun c => st.findDetail c.id), []⟩,
           ⟨st.claims.length, 0, (st.claims.filterMap (fun c => st.findDetail c.id)).length,
            0, []⟩) := by
  obtain ⟨hwc, hcn, hwd, hdn, hlen⟩ := hwf
  have hlenrows : ¬ (st.claims.map exportClaimRow).length > 50000 := by
    rw [List.length_map]
    omega
  have hdet_propsJ : ∀ d ∈ st.claims.filterMap (fun c => st.findDetail c.id),
      ((⟨st.claims, [], []⟩ : Store).findClaim d.claim_id).isSome = true ∧
      d.denial_reason ≠ some "" ∧ (⟨st.claims, [], []⟩ : Store).findDetail d.claim_id = none := by
    intro d hd
    have hmem : d ∈ st.details := (mem_dsJ_iff ⟨hwc, hcn, hwd, hdn, hlen⟩ d).mp hd
    have h := hwd d hmem
    unfold WFDetail at h
    simp only [Bool.and_eq_true, decide_eq_true_eq] at h
    exact ⟨h.1, h.2, rfl⟩
  unfold importBody exportedClaimsFile exportedDetailsFile export_claims_to_json
  simp only [except_ok_bind]
  rw [show (decide (Operation.overwrite = Operation.add)) = false from rfl, if_true,
    show deleteAllClaims (deleteAllDetails st) = emptyStore from rfl]
  rw [← List.map_filterMap]
  unfold importClaimsJsonRows
  rw [if_neg hlenrows]
  unfold importClaimsRows
  rw [importClaims_export_fold false jsonCtx st.claims 0 emptyStore emptyResults hwc
    (fun c _ => rfl) hcn]
  simp only [emptyStore, emptyResults, List.nil_append, Nat.zero_add]
  unfold importDetailsRows
  rw [importDetails_export_fold false jsonCtx (st.claims.filterMap (fun c => st.findDetail c.id))
    0 ⟨st.claims, [], []⟩ ⟨st.claims.length, 0, 0, 0, []⟩ hdet_propsJ (dsJ_ids_nodup
      ⟨hwc, hcn, hwd, hdn, hlen⟩)]
  simp only [List.nil_append, Nat.zero_add]
  rfl

/-- C3 (amended): for every store satisfying the documented data model
(trimmed nonempty bounded names, enumerated status, bounded two-place
amounts, valid dates, unique ids, details with existing parents, at most
50,000 claims), exporting all claims and details and re-importing the
export with the same format in overwrite mode reproduces the claim list
exactly and the details up to order, with claims_created / details_created
equal to the table sizes and an empty error list. -/
theorem C3_roundtrip (st : Store) (ft : FileType) (hwf : WFStore st) :
    ∃ details' : List DetailRec,
      details'.Perm st.details ∧
      import_data st (exportedClaimsFile st) (some (exportedDetailsFile st)) ft .overwrite =
        (⟨st.claims, details', []⟩, .ok ⟨st.claims.length, 0, st.details.length, 0, []⟩) := by
  obtain ⟨hwc, hcn, hwd, hdn, hlen⟩ := hwf
  cases ft with
  | csv =>
    refine ⟨st.details, List.Perm.refl _, ?_⟩
    exact import_data_ok
      (by show ¬ (0 : Nat) > MAX_FILE_SIZE; decide)
      (fun f hf => by cases hf; show ¬ (0 : Nat) > MAX_FILE_SIZE; decide)
      (C3_body_csv st hwc hcn hwd hdn hlen)
  | json =>
    have hperm := dsJ_perm ⟨hwc, hcn, hwd, hdn, hlen⟩
    refine ⟨st.claims.filterMap (fun c => st.findDetail c.id), hperm, ?_⟩
    have hb := C3_body_json st ⟨hwc, hcn, hwd, hdn, hlen⟩
    rw [hperm.length_eq] at hb
    exact import_data_ok
      (by show ¬ (0 : Nat) > MAX_FILE_SIZE; decide)
      (fun f hf => by cases hf; show ¬ (0 : Nat) > MAX_FILE_SIZE; decide)
      hb

/-- A concrete well-formed store for the C3 witness. -/
def c3Store : Store :=
  ⟨[⟨1, "Jane", ⟨120000, -2⟩, ⟨0, -2⟩, "Paid", "Acme", ⟨2024, 3, 15⟩, ""⟩],
   [⟨1, "99204", none⟩], []⟩

/-- Closed instance of C3_roundtrip. -/
theorem C3_roundtrip_witness :
    WFStore c3Store ∧
    ∃ details' : List DetailRec,
      details'.Perm c3Store.details ∧
      import_data c3Store (exportedClaimsFile c3Store) (some (exportedDetailsFile c3Store))
          .csv .overwrite =
        (⟨c3Store.claims, details', []⟩,
         .ok ⟨c3Store.claims.length, 0, c3Store.details.length, 0, []⟩) :=
  ⟨by decide, C3_roundtrip c3Store .csv (by decide)⟩

/-- A store violating the data-model invariants: the patient name keeps a
leading space (possible through direct administrative edits). -/
def c3BadStore : Store :=
  ⟨[⟨1, " Jane", ⟨120000, -2⟩, ⟨0, -2⟩, "Paid", "Acme", ⟨2024, 3, 15⟩, ""⟩], [], []⟩

/-- C3 counterexample: for the store whose stored patient name is " Jane",
exporting and re-importing with the same format and mode does not reproduce
the same field values - the import trims the name, so the resulting store
differs from the original.  The round-trip law therefore fails for
arbitrary store states and holds only for data-model-conform ones. -/
theorem C3_counterexample :
    (import_data c3BadStore (exportedClaimsFile c3BadStore)
      (some (exportedDetailsFile c3BadStore)) .csv .overwrite).1.claims ≠
      c3BadStore.claims := by decide

/-! ## C4: overwrite deletes before processing -/

/-- C4: in overwrite mode the transactional body first deletes every
ClaimDetail and then every Claim (details first in the definition of
importBody; deleting all claims cascades to flags), before any record is
processed: the body on any starting store equals the body on the empty
store.  In particular an overwrite import of a zero-row claims file against
a store holding any number of claims leaves zero claims and zero details. -/
theorem C4_overwrite_deletes_all (st : Store) (cf : UFile) (df : Option UFile) (ft : FileType)
    (h1 : ¬ cf.size > MAX_FILE_SIZE) :
    importBody st cf df ft .overwrite = importBody emptyStore cf df ft .overwrite ∧
    (∀ hd : Option (List String), cf.csvContent = .ok (hd, []) →
      import_data st cf none .csv .overwrite = (emptyStore, .ok emptyResults)) := by
  constructor
  · rfl
  · intro hd hcsv
    have hb : importBody st cf none .csv .overwrite = .ok (emptyStore, emptyResults) := by
      unfold importBody
      rw [hcsv]
      simp only [except_ok_bind]
      rw [show (decide (Operation.overwrite = Operation.add)) = false from rfl,
        show deleteAllClaims (deleteAllDetails st) = emptyStore from rfl]
      unfold importClaimsCsvRows
      rw [if_neg (by decide)]
      rfl
    exact import_data_ok h1 (fun f hf => by cases hf) hb

/-- A zero-row claims upload (header only). -/
def c4File : UFile := ⟨20, "claims.csv", .ok (some exportClaimsHeader, []), .error "no json"⟩

/-- Closed instance of C4_overwrite_deletes_all on a store holding a claim. -/
theorem C4_overwrite_deletes_all_witness :
    (¬ c4File.size > MAX_FILE_SIZE) ∧
    import_data c3Store c4File none .csv .overwrite = (emptyStore, .ok emptyResults) :=
  ⟨by decide,
   (C4_overwrite_deletes_all c3Store c4File none .csv (by decide)).2
     (some exportClaimsHeader) rfl⟩

/-! ## C5: additive mode and existing records -/

theorem import_data_ok_inv {st : Store} {cf : UFile} {df : Option UFile} {ft : FileType}
    {op : Operation} {st' : Store} {res : Results}
    (h : import_data st cf df ft op = (st', .ok res)) :
    importBody st cf df ft op = .ok (st', res) := by
  unfold import_data at h
  cases hv : validate_file cf with
  | error e =>
    rw [hv] at h
    injection h with h1 h2
    cases h2
  | ok u =>
    rw [hv] at h
    cases hdv : (match df with
                 | some dfi => validate_file dfi
                 | none => Except.ok ()) with
    | error e =>
      rw [hdv] at h
      injection h with h1 h2
      cases h2
    | ok u2 =>
      rw [hdv] at h
      cases hb : importBody st cf df ft op with
      | error e =>
        rw [hb] at h
        injection h with h1 h2
        cases h2
      | ok a =>
        rw [hb] at h
        injection h with h1 h2
        injection h2 with h3
        rw [show a = (a.1, a.2) from rfl, h1, h3]

theorem findClaim_congr {s1 s2 : Store} (h : s1.claims = s2.claims) (i : Int) :
    s1.findClaim i = s2.findClaim i := by
  unfold Store.findClaim
  rw [h]

theorem processClaimRow_preserves_found {i : Int} {c : ClaimRec} (ctx : String) (row : RawRow)
    (acc : Store × Results) (h : acc.1.findClaim i = some c) :
    (processClaimRow true ctx row acc).1.findClaim i = some c := by
  unfold processClaimRow
  cases parseClaimRow ctx row with
  | error e => exact h
  | ok c' =>
    show (applyClaim true c' acc).1.findClaim i = some c
    unfold applyClaim
    cases hf : acc.1.findClaim c'.id with
    | none =>
      show ({ acc.1 with claims := acc.1.claims ++ [c'] } : Store).findClaim i = some c
      unfold Store.findClaim at h ⊢
      rw [List.find?_append, h]
      rfl
    | some old => exact h

theorem processClaimRow_no_update (ctx : String) (row : RawRow) (acc : Store × Results)
    (h : acc.2.claims_updated = 0) :
    (processClaimRow true ctx row acc).2.claims_updated = 0 := by
  unfold processClaimRow
  cases parseClaimRow ctx row with
  | error e => exact h
  | ok c' =>
    show (applyClaim true c' acc).2.claims_updated = 0
    unfold applyClaim
    cases hf : acc.1.findClaim c'.id with
    | none => exact h
    | some old => exact h

theorem processClaimRow_skip (ctx : String) (row : RawRow) (acc : Store × Results)
    (cRec : ClaimRec) (hp : parseClaimRow ctx row = .ok cRec)
    (hf : (acc.1.findClaim cRec.id).isSome = true) :
    processClaimRow true ctx row acc = acc := by
  obtain ⟨c0, hc0⟩ := Option.isSome_iff_exists.mp hf
  unfold processClaimRow
  rw [hp]
  show applyClaim true cRec acc = acc
  unfold applyClaim
  rw [hc0]
  rfl

theorem importClaimsCsvRows_add_preserves {i : Int} {c : ClaimRec} (rows : List RawRow)
    (acc : Store × Results) (h : acc.1.findClaim i = some c) :
    (importClaimsCsvRows rows true acc).1.findClaim i = some c := by
  unfold importClaimsCsvRows
  by_cases hl : rows.length > 50000
  · rw [if_pos hl]
    exact importRowsAux_induct _ (fun a => a.1.findClaim i = some c)
      (fun k r a ha => processClaimRow_preserves_found _ r a ha) _ 0 acc h
  · rw [if_neg hl]
    exact importRowsAux_induct _ (fun a => a.1.findClaim i = some c)
      (fun k r a ha => processClaimRow_preserves_found _ r a ha) _ 0 acc h

theorem importClaimsJsonRows_add_preserves {i : Int} {c : ClaimRec} (rows : List RawRow)
    (acc : Store × Results) (h : acc.1.findClaim i = some c) :
    (importClaimsJsonRows rows true acc).1.findClaim i = some c := by
  unfold importClaimsJsonRows
  by_cases hl : rows.length > 50000
  · rw [if_pos hl]
    exact importRowsAux_induct _ (fun a => a.1.findClaim i = some c)
      (fun k r a ha => processClaimRow_preserves_found _ r a ha) _ 0 _ h
  · rw [if_neg hl]
    exact importRowsAux_induct _ (fun a => a.1.findClaim i = some c)
      (fun k r a ha => processClaimRow_preserves_found _ r a ha) _ 0 acc h

theorem importClaimsCsvRows_no_update (rows : List RawRow) (acc : Store × Results)
    (h : acc.2.claims_updated = 0) :
    (importClaimsCsvRows rows true acc).2.claims_updated = 0 := by
  unfold importClaimsCsvRows
  by_cases hl : rows.length > 50000
  · rw [if_pos hl]
    exact importRowsAux_induct _ (fun a => a.2.claims_updated = 0)
      (fun k r a ha => processClaimRow_no_update _ r a ha) _ 0 acc h
  · rw [if_neg hl]
    exact importRowsAux_induct _ (fun a => a.2.claims_updated = 0)
      (fun k r a ha => processClaimRow_no_update _ r a ha) _ 0 acc h

theorem importClaimsJsonRows_no_update (rows : List RawRow) (acc : Store × Results)
    (h : acc.2.claims_updated = 0) :
    (importClaimsJsonRows rows true acc).2.claims_updated = 0 := by
  unfold importClaimsJsonRows
  by_cases hl : rows.length > 50000
  · rw [if_pos hl]
    exact importRowsAux_induct _ (fun a => a.2.claims_updated = 0)
      (fun k r a ha => processClaimRow_no_update _ r a ha) _ 0 _ h
  · rw [if_neg hl]
    exact importRowsAux_induct _ (fun a => a.2.claims_updated = 0)
      (fun k r a ha => processClaimRow_no_update _ r a ha) _ 0 acc h

theorem importDetailsRows_preserves_found {i : Int} {c : ClaimRec} (append : Bool)
    (ctx : Nat → String) (rows : List RawRow) (acc : Store × Results)
    (h : acc.1.findClaim i = some c) :
    (importDetailsRows append ctx rows acc).1.findClaim i = some c := by
  unfold importDetailsRows
  exact importRowsAux_induct _ (fun a => a.1.findClaim i = some c)
    (fun k r a ha => by
      show (processDetailRow append (ctx k) r a).1.findClaim i = some c
      rw [findClaim_congr (processDetailRow_frame append (ctx k) r a).1 i]
      exact ha) _ 0 acc h

theorem importDetailsRows_no_claim_update (append : Bool) (ctx : Nat → String)
    (rows : List RawRow) (acc : Store × Results) (h : acc.2.claims_updated = 0) :
    (importDetailsRows append ctx rows acc).2.claims_updated = 0 := by
  unfold importDetailsRows
  exact importRowsAux_induct _ (fun a => a.2.claims_updated = 0)
    (fun k r a ha => by
      show (processDetailRow append (ctx k) r a).2.claims_updated = 0
      rw [(processDetailRow_frame append (ctx k) r a).2.2.2]
      exact ha) _ 0 acc h

theorem importBody_add_inv {st : Store} {cf : UFile} {df : Option UFile} {ft : FileType}
    {st' : Store} {res : Results}
    (hb : importBody st cf df ft .add = .ok (st', res)) :
    (∀ i c, st.findClaim i = some c → st'.findClaim i = some c) ∧ res.claims_updated = 0 := by
  unfold importBody at hb
  cases ft with
  | csv =>
    cases df with
    | none =>
      cases hcf : cf.csvContent with
      | error e =>
        rw [hcf] at hb
        cases hb
      | ok cp =>
        rw [hcf] at hb
        simp only [except_ok_bind] at hb
        injection hb with hb1
        refine ⟨fun i c hic => ?_, ?_⟩
        · show (st', res).1.findClaim i = some c
          rw [← hb1]
          exact importClaimsCsvRows_add_preserves cp.2 (st, emptyResults) hic
        · show (st', res).2.claims_updated = 0
          rw [← hb1]
          exact importClaimsCsvRows_no_update cp.2 (st, emptyResults) rfl
    | some f =>
      cases hcf : cf.csvContent with
      | error e =>
        rw [hcf] at hb
        cases hb
      | ok cp =>
        rw [hcf] at hb
        simp only [except_ok_bind] at hb
        cases hdf : f.csvContent with
        | error e =>
          rw [hdf] at hb
          cases hb
        | ok dp =>
          rw [hdf] at hb
          simp only [except_ok_bind] at hb
          injection hb with hb1
          refine ⟨fun i c hic => ?_, ?_⟩
          · show (st', res).1.findClaim i = some c
            rw [← hb1]
            exact importDetailsRows_preserves_found true csvCtx dp.2 _
              (importClaimsCsvRows_add_preserves cp.2 (st, emptyResults) hic)
          · show (st', res).2.claims_updated = 0
            rw [← hb1]
            exact importDetailsRows_no_claim_update true csvCtx dp.2 _
              (importClaimsCsvRows_no_update cp.2 (st, emptyResults) rfl)
  | json =>
    cases df with
    | none =>
      cases hcf : cf.jsonContent with
      | error e =>
        rw [hcf] at hb
        cases hb
      | ok cp =>
        rw [hcf] at hb
        simp only [except_ok_bind] at hb
        injection hb with hb1
        refine ⟨fun i c hic => ?_, ?_⟩
        · show (st', res).1.findClaim i = some c
          rw [← hb1]
          exact importClaimsJsonRows_add_preserves cp (st, emptyResults) hic
        · show (st', res).2.claims_updated = 0
          rw [← hb1]
          exact importClaimsJsonRows_no_update cp (st, emptyResults) rfl
    | some f =>
      cases hcf : cf.jsonContent with
      | error e =>
        rw [hcf] at hb
        cases hb
      | ok cp =>
        rw [hcf] at hb
        simp only [except_ok_bind] at hb
        cases hdf : f.jsonContent with
        | error e =>
          rw [hdf] at hb
          cases hb
        | ok dp =>
          rw [hdf] at hb
          simp only [except_ok_bind] at hb
          injection hb with hb1
          refine ⟨fun i c hic => ?_, ?_⟩
          · show (st', res).1.findClaim i = some c
            rw [← hb1]
            exact importDetailsRows_preserves_found true jsonCtx dp _
              (importClaimsJsonRows_add_preserves cp (st, emptyResults) hic)
          · show (st', res).2.claims_updated = 0
            rw [← hb1]
            exact importDetailsRows_no_claim_update true jsonCtx dp _
              (importClaimsJsonRows_no_update cp (st, emptyResults) rfl)

def c5File : UFile :=
  ⟨10, "claims.csv", .ok (some ["id"], [[("id", "1"), ("discharge_date", "bad")]]), .error "x"⟩

/-- C5 counterexample: in add mode, an input record whose id (1) already exists in the
store is nevertheless recorded as a per-row error when its other fields fail
validation, because field validation runs before the existence check; the stored
claim itself is left unchanged and no counter moves. This refutes the literal
reading "a record whose id already exists is ... not recorded as an error". -/
theorem C5_counterexample :
    (c3Store.findClaim 1).isSome = true ∧
    getItem [("id", "1"), ("discharge_date", "bad")] "id" = .ok "1" ∧
    import_data c3Store c5File none .csv .add =
      (c3Store, .ok ⟨0, 0, 0, 0,
        ["Row 2: Row 2 Invalid date format: bad. Expected YYYY-MM-DD or MM/DD/YYYY or DD/MM/YYYY"]⟩) := by
  decide

/-- C5 (amended): in add mode a successful import leaves every stored claim findable
unchanged and reports claims_updated = 0; moreover any row that parses to a record
whose id already exists in the accumulator store is skipped entirely: the store, all
four counters and the error list are untouched. (The amendment: a record whose id
already exists is only guaranteed not to produce an error when its fields pass
validation; an invalid record still records a per-row error even though its id
exists, as field validation precedes the existence check.) -/
theorem C5_add_skips_existing {st : Store} {cf : UFile} {df : Option UFile}
    {ft : FileType} {st' : Store} {res : Results}
    (h : import_data st cf df ft .add = (st', .ok res)) :
    (∀ i c, st.findClaim i = some c → st'.findClaim i = some c) ∧
    res.claims_updated = 0 ∧
    (∀ ctx row acc cRec, parseClaimRow ctx row = Except.ok cRec →
      (acc.1.findClaim cRec.id).isSome = true →
      processClaimRow true ctx row acc = acc) := by
  have hinv := importBody_add_inv (import_data_ok_inv h)
  exact ⟨hinv.1, hinv.2, fun ctx row acc cRec hp hf =>
    processClaimRow_skip ctx row acc cRec hp hf⟩

def c5OkFile : UFile :=
  ⟨10, "claims.csv",
   .ok (some ["id"],
        [[("id", "1"), ("discharge_date", "2024-03-15"), ("billed_amount", "100"),
          ("paid_amount", "0"), ("status", "Paid"), ("patient_name", "Jane"),
          ("insurer_name", "Acme")]]),
   .error "x"⟩

/-- Closed instance of C5_add_skips_existing: adding a valid record whose id 1
already exists leaves the store identical and all counters at zero. -/
theorem C5_add_skips_existing_witness :
    (∀ i c, c3Store.findClaim i = some c → c3Store.findClaim i = some c) ∧
    (⟨0, 0, 0, 0, []⟩ : Results).claims_updated = 0 ∧
    (∀ ctx row acc cRec, parseClaimRow ctx row = Except.ok cRec →
      (acc.1.findClaim cRec.id).isSome = true →
      processClaimRow true ctx row acc = acc) :=
  @C5_add_skips_existing c3Store c5OkFile none .csv c3Store ⟨0, 0, 0, 0, []⟩ (by decide)

def emptyUpload : UFile :=
  ⟨0, "claims.csv", .ok (none, []), .error "Expecting value: line 1 column 1 (char 0)"⟩

/-- C6 counterexample: a zero-byte claims file passes validate_file (which only
checks the size ceiling), so import_data succeeds with an empty ok result instead of
aborting; in overwrite mode it even deletes every existing claim, so mutations do
occur. -/
theorem C6_counterexample :
    emptyUpload.size = 0 ∧
    import_data c3Store emptyUpload none .csv .overwrite = (emptyStore, .ok emptyResults) ∧
    emptyStore ≠ c3Store := by
  decide

/-- C6 (amended): only the upload form rejects empty input. For a file whose raw
content is empty (the CSV reader yields no header and no rows; the JSON parser fails),
DataUploadForm.clean_claims_file returns an error for every format, before any record
is processed. The importer itself (validate_file / import_data) never rejects empty
content. -/
theorem C6_form_rejects_empty (ft : FileType) (f : UFile) (e : String)
    (hc : f.csvContent = Except.ok (none, []))
    (hj : f.jsonContent = Except.error e) :
    ∃ msg, clean_claims_file ft f = Except.error msg := by
  cases ft with
  | csv =>
    by_cases hx : (pyLower f.name).endsWith ".csv" = true
    · refine ⟨"Missing required columns: " ++ joinCommaSep requiredClaimHeaders, ?_⟩
      show (if ¬ (pyLower f.name).endsWith ".csv" then
              Except.error "Please upload a CSV file when CSV format is selected."
            else
              match f.csvContent with
              | .error _ => Except.error "File encoding error. Please use UTF-8 encoding."
              | .ok c =>
                let missing := requiredClaimHeaders.filter (fun h => ¬ (c.1.getD []).contains h)
                if missing ≠ [] then Except.error ("Missing required columns: " ++ joinCommaSep missing)
                else Except.ok ()) = _
      rw [if_neg (by simp [hx]), hc]
      decide
    · refine ⟨"Please upload a CSV file when CSV format is selected.", ?_⟩
      show (if ¬ (pyLower f.name).endsWith ".csv" then
              Except.error "Please upload a CSV file when CSV format is selected."
            else
              match f.csvContent with
              | .error _ => Except.error "File encoding error. Please use UTF-8 encoding."
              | .ok c =>
                let missing := requiredClaimHeaders.filter (fun h => ¬ (c.1.getD []).contains h)
                if missing ≠ [] then Except.error ("Missing required columns: " ++ joinCommaSep missing)
                else Except.ok ()) = _
      rw [if_pos hx]
  | json =>
    by_cases hx : (pyLower f.name).endsWith ".json" = true
    · refine ⟨"Invalid JSON file format.", ?_⟩
      show (if ¬ (pyLower f.name).endsWith ".json" then
              Except.error "Please upload a JSON file when JSON format is selected."
            else
              match f.jsonContent with
              | .error _ => Except.error "Invalid JSON file format."
              | .ok items =>
                match items with
                | [] => Except.error "JSON file must contain a list of claim objects."
                | first :: _ =>
                  let missing := requiredClaimHeaders.filter (fun h => ¬ (first.map Prod.fst).contains h)
                  if missing ≠ [] then Except.error ("Missing required fields in JSON: " ++ joinCommaSep missing)
                  else Except.ok ()) = _
      rw [if_neg (by simp [hx]), hj]
    · refine ⟨"Please upload a JSON file when JSON format is selected.", ?_⟩
      show (if ¬ (pyLower f.name).endsWith ".json" then
              Except.error "Please upload a JSON file when JSON format is selected."
            else
              match f.jsonContent with
              | .error _ => Except.error "Invalid JSON file format."
              | .ok items =>
                match items with
                | [] => Except.error "JSON file must contain a list of claim objects."
                | first :: _ =>
                  let missing := requiredClaimHeaders.filter (fun h => ¬ (first.map Prod.fst).contains h)
                  if missing ≠ [] then Except.error ("Missing required fields in JSON: " ++ joinCommaSep missing)
                  else Except.ok ()) = _
      rw [if_pos hx]

/-- Closed instance of C6_form_rejects_empty at the empty upload. -/
theorem C6_form_rejects_empty_witness :
    ∃ msg, clean_claims_file .csv emptyUpload = Except.error msg :=
  C6_form_rejects_empty .csv emptyUpload "Expecting value: line 1 column 1 (char 0)" rfl rfl

/-- C7: a details row whose claim_id parses but matches no stored claim changes
nothing in the store (no claim and no detail is created): the row only appends the
position-tagged error "ctx: Claim id not found", and the enumerate loop then
proceeds with the remaining rows from the same accumulator. -/
theorem C7_detail_missing_claim (append : Bool) (ctx : Nat → String) (row : RawRow)
    (rest : List RawRow) (acc : Store × Results) (cidStr : String) (cid : Int)
    (h1 : getItem row "claim_id" = Except.ok cidStr)
    (h2 : pyIntParse cidStr = Except.ok cid)
    (h3 : acc.1.findClaim cid = none) :
    processDetailRow append (ctx 0) row acc =
      (acc.1, addError acc.2 (ctx 0 ++ ": " ++ ("Claim " ++ intStr cid ++ " not found"))) ∧
    importDetailsRows append ctx (row :: rest) acc =
      importRowsAux (fun k r a => processDetailRow append (ctx k) r a) 1 rest
        (acc.1, addError acc.2 (ctx 0 ++ ": " ++ ("Claim " ++ intStr cid ++ " not found"))) := by
  have hp : processDetailRow append (ctx 0) row acc =
      (acc.1, addError acc.2 (ctx 0 ++ ": " ++ ("Claim " ++ intStr cid ++ " not found"))) := by
    unfold processDetailRow
    rw [h1]
    simp only [except_ok_bind]
    rw [h2]
    simp only [except_ok_bind]
    rw [h3]
  refine ⟨hp, ?_⟩
  show importRowsAux (fun k r a => processDetailRow append (ctx k) r a) 1 rest
        (processDetailRow append (ctx 0) row acc) = _
  rw [hp]

/-- Closed instance of C7_detail_missing_claim: "Row 2: Claim 101 not found". -/
theorem C7_detail_missing_claim_witness :
    processDetailRow true (csvCtx 0) [("claim_id", "101")] (emptyStore, emptyResults) =
      (emptyStore,
       addError emptyResults (csvCtx 0 ++ ": " ++ ("Claim " ++ intStr 101 ++ " not found"))) ∧
    importDetailsRows true csvCtx [[("claim_id", "101")]] (emptyStore, emptyResults) =
      importRowsAux (fun k r a => processDetailRow true (csvCtx k) r a) 1 []
        (emptyStore,
         addError emptyResults (csvCtx 0 ++ ": " ++ ("Claim " ++ intStr 101 ++ " not found"))) :=
  C7_detail_missing_claim true csvCtx [("claim_id", "101")] [] (emptyStore, emptyResults)
    "101" 101 (by decide) (by decide) (by decide)

theorem safe_decimal_empty (value field_name : String)
    (hc : pyStrip (removeDollarsCommas value) = "") :
    safe_decimal_conversion value field_name = .ok ⟨0, -2⟩ := by
  simp only [safe_decimal_conversion]
  rw [if_pos hc]

theorem safe_decimal_parse_none (value field_name : String)
    (hc : ¬ pyStrip (removeDollarsCommas value) = "")
    (hp : parseDecimalString (pyStrip (removeDollarsCommas value)) = none) :
    safe_decimal_conversion value field_name =
      .error ("Invalid " ++ field_name ++ ": \x27" ++ value ++ "\x27 - " ++ conversionSyntaxMsg) := by
  simp only [safe_decimal_conversion]
  rw [if_neg hc, hp]

theorem safe_decimal_parse_some (value field_name : String) {d : PyDecimal}
    (hc : ¬ pyStrip (removeDollarsCommas value) = "")
    (hp : parseDecimalString (pyStrip (removeDollarsCommas value)) = some d) :
    safe_decimal_conversion value field_name =
      (if d.lt ⟨0, 0⟩ then
        Except.error ("Invalid " ++ field_name ++ ": \x27" ++ value ++
          "\x27 - Negative value not allowed for " ++ field_name)
      else if decimalUpperBound.lt d then
        Except.error ("Invalid " ++ field_name ++ ": \x27" ++ value ++
          "\x27 - Value too large for " ++ field_name)
      else Except.ok d) := by
  simp only [safe_decimal_conversion]
  rw [if_neg hc, hp]

/-- C8: safe_decimal_conversion first strips dollar signs, commas and surrounding
whitespace; a value that is empty after cleaning yields Decimal 0.00 (coefficient 0,
exponent -2); it returns an error exactly when the cleaned remainder is nonempty and
either fails the decimal grammar, is negative, or exceeds 9999999.99; otherwise it
returns the cleaned value parsed as an exact decimal, unchanged. -/
theorem C8_amount_coercion (value field_name : String) :
    (pyStrip (removeDollarsCommas value) = "" →
       safe_decimal_conversion value field_name = .ok ⟨0, -2⟩) ∧
    ((∃ e, safe_decimal_conversion value field_name = .error e) ↔
       pyStrip (removeDollarsCommas value) ≠ "" ∧
       (parseDecimalString (pyStrip (removeDollarsCommas value)) = none ∨
        ∃ d, parseDecimalString (pyStrip (removeDollarsCommas value)) = some d ∧
          (d.lt ⟨0, 0⟩ ∨ decimalUpperBound.lt d))) ∧
    (∀ d, parseDecimalString (pyStrip (removeDollarsCommas value)) = some d →
       ¬ d.lt ⟨0, 0⟩ → ¬ decimalUpperBound.lt d →
       safe_decimal_conversion value field_name = .ok d) := by
  by_cases hc : pyStrip (removeDollarsCommas value) = ""
  · have hres := safe_decimal_empty value field_name hc
    have hpe : parseDecimalString "" = none := by decide
    refine ⟨fun _ => hres, ?_, ?_⟩
    · constructor
      · rintro ⟨e, he⟩
        rw [hres] at he
        cases he
      · rintro ⟨hne, _⟩
        exact absurd hc hne
    · intro d hd
      rw [hc, hpe] at hd
      cases hd
  · cases hp : parseDecimalString (pyStrip (removeDollarsCommas value)) with
    | none =>
      have hres := safe_decimal_parse_none value field_name hc hp
      refine ⟨fun h => absurd h hc, ?_, ?_⟩
      · constructor
        · intro _
          exact ⟨hc, .inl rfl⟩
        · intro _
          exact ⟨_, hres⟩
      · intro d hd
        cases hd
    | some d0 =>
      have hres := safe_decimal_parse_some value field_name hc hp
      by_cases hneg : d0.lt ⟨0, 0⟩
      · rw [if_pos hneg] at hres
        refine ⟨fun h => absurd h hc, ?_, ?_⟩
        · constructor
          · intro _
            exact ⟨hc, .inr ⟨d0, rfl, .inl hneg⟩⟩
          · intro _
            exact ⟨_, hres⟩
        · intro d hd
          injection hd with hd1
          intro hn _
          exact absurd (hd1 ▸ hneg) hn
      · rw [if_neg hneg] at hres
        by_cases hbig : decimalUpperBound.lt d0
        · rw [if_pos hbig] at hres
          refine ⟨fun h => absurd h hc, ?_, ?_⟩
          · constructor
            · intro _
              exact ⟨hc, .inr ⟨d0, rfl, .inr hbig⟩⟩
            · intro _
              exact ⟨_, hres⟩
          · intro d hd
            injection hd with hd1
            intro _ hb
            exact absurd (hd1 ▸ hbig) hb
        · rw [if_neg hbig] at hres
          refine ⟨fun h => absurd h hc, ?_, ?_⟩
          · constructor
            · rintro ⟨e, he⟩
              rw [hres] at he
              cases he
            · rintro ⟨_, hbad⟩
              rcases hbad with h1 | ⟨d, hd, hlt⟩
              · cases h1
              · injection hd with hd1
                cases hd1
                rcases hlt with h2 | h2
                · exact absurd h2 hneg
                · exact absurd h2 hbig
          · intro d hd _ _
            injection hd with hd1
            rw [hres, hd1]

/-- Closed instance of C8_amount_coercion: " $1,200.00 " coerces to 1200.00. -/
theorem C8_amount_coercion_witness :
    safe_decimal_conversion " $1,200.00 " "billed_amount" = .ok ⟨120000, -2⟩ :=
  (C8_amount_coercion " $1,200.00 " "billed_amount").2.2 ⟨120000, -2⟩
    (by decide) (by decide) (by decide)

theorem countP_le_one_of_pairwise (l : List FlagRec) (cid : Int) (u : Nat)
    (h : l.Pairwise (fun f g => ¬ (f.claim_id = g.claim_id ∧ f.user = g.user))) :
    l.countP (fun f => f.claim_id == cid && f.user == u) ≤ 1 := by
  induction l with
  | nil => simp
  | cons a t ih =>
    rw [List.countP_cons]
    rcases List.pairwise_cons.mp h with ⟨ha, ht⟩
    by_cases hp : (a.claim_id == cid && a.user == u) = true
    · have hpa : a.claim_id = cid ∧ a.user = u := by
        simpa [Bool.and_eq_true] using hp
      have ht0 : t.countP (fun f => f.claim_id == cid && f.user == u) = 0 := by
        rw [List.countP_eq_zero]
        intro x hx hxp
        have hpx : x.claim_id = cid ∧ x.user = u := by
          simpa [Bool.and_eq_true] using hxp
        exact ha x hx ⟨hpa.1.trans hpx.1.symm, hpa.2.trans hpx.2.symm⟩
      rw [ht0, if_pos hp]
    · rw [if_neg hp]
      simpa using ih ht

theorem flag_claim_ok_inv {st : Store} {user : Nat} {claim_id : Int} {st1 : Store} {b : Bool}
    (h : flag_claim st user claim_id = .ok (st1, b)) :
    ¬ claim_id ≤ 0 ∧ (st.findClaim claim_id).isSome = true ∧
    ((∃ f0, st.flags.find? (fun f => f.claim_id == claim_id && f.user == user) = some f0 ∧
        st1 = st ∧ b = false) ∨
     (st.flags.find? (fun f => f.claim_id == claim_id && f.user == user) = none ∧
        st1 = { st with flags := st.flags ++ [⟨claim_id, user, "Flagged for review"⟩] } ∧
        b = true)) := by
  unfold flag_claim at h
  by_cases hc : claim_id ≤ 0
  · rw [if_pos hc] at h
    cases h
  · rw [if_neg hc] at h
    cases hf : st.findClaim claim_id with
    | none =>
      rw [hf] at h
      cases h
    | some c =>
      rw [hf] at h
      cases hfind : st.flags.find? (fun f => f.claim_id == claim_id && f.user == user) with
      | some f0 =>
        rw [hfind] at h
        injection h with h1
        injection h1 with h2 h3
        exact ⟨hc, rfl, .inl ⟨f0, rfl, h2.symm, h3.symm⟩⟩
      | none =>
        rw [hfind] at h
        injection h with h1
        injection h1 with h2 h3
        exact ⟨hc, rfl, .inr ⟨rfl, h2.symm, h3.symm⟩⟩

/-- C9: if at most one flag exists per (claim, user) pair, then after any successful
flag_claim call the invariant still holds, a second identical call is a no-op
returning created = false with the store unchanged, exactly one flag row matches the
(claim, user) pair, and every pair still has at most one row. -/
theorem C9_flag_once (st : Store) (user : Nat) (claim_id : Int)
    (hinv : AtMostOneFlag st) (st1 : Store) (b : Bool)
    (h : flag_claim st user claim_id = .ok (st1, b)) :
    AtMostOneFlag st1 ∧
    flag_claim st1 user claim_id = .ok (st1, false) ∧
    st1.flags.countP (fun f => f.claim_id == claim_id && f.user == user) = 1 ∧
    ∀ c u, st1.flags.countP (fun f => f.claim_id == c && f.user == u) ≤ 1 := by
  obtain ⟨hc, hfc, hcase⟩ := flag_claim_ok_inv h
  rcases hcase with ⟨f0, hfind, rfl, rfl⟩ | ⟨hfind, rfl, rfl⟩
  · refine ⟨hinv, ?_, ?_, fun c u => countP_le_one_of_pairwise _ c u hinv⟩
    · unfold flag_claim
      rw [if_neg hc]
      obtain ⟨cc, hcc⟩ := Option.isSome_iff_exists.mp hfc
      rw [hcc, hfind]
    · have hle := countP_le_one_of_pairwise st1.flags claim_id user hinv
      have hpos : 0 < st1.flags.countP (fun f => f.claim_id == claim_id && f.user == user) := by
        rw [List.countP_pos_iff]
        have hps := List.find?_some hfind
        exact ⟨f0, List.mem_of_find?_eq_some hfind, hps⟩
      omega
  · have hpair : AtMostOneFlag
        { st with flags := st.flags ++ [⟨claim_id, user, "Flagged for review"⟩] } := by
      unfold AtMostOneFlag
      show (st.flags ++ [(⟨claim_id, user, "Flagged for review"⟩ : FlagRec)]).Pairwise
        (fun f g => ¬ (f.claim_id = g.claim_id ∧ f.user = g.user))
      rw [List.pairwise_append]
      refine ⟨hinv, by simp, ?_⟩
      intro a ha g hg
      rw [List.mem_singleton] at hg
      subst hg
      have hno := List.find?_eq_none.mp hfind a ha
      intro hcon
      exact hno (by simp [Bool.and_eq_true, hcon.1, hcon.2])
    refine ⟨hpair, ?_, ?_, fun c u => countP_le_one_of_pairwise _ c u hpair⟩
    · unfold flag_claim
      rw [if_neg hc]
      obtain ⟨cc, hcc⟩ := Option.isSome_iff_exists.mp hfc
      have hfc2 : ({ st with flags := st.flags ++ [⟨claim_id, user, "Flagged for review"⟩] }
          : Store).findClaim claim_id = some cc := hcc
      rw [hfc2]
      rw [show ({ st with flags := st.flags ++ [⟨claim_id, user, "Flagged for review"⟩] }
          : Store).flags = st.flags ++ [⟨claim_id, user, "Flagged for review"⟩] from rfl]
      rw [List.find?_append, hfind]
      simp [List.find?]
    · show (st.flags ++ [(⟨claim_id, user, "Flagged for review"⟩ : FlagRec)]).countP
          (fun f => f.claim_id == claim_id && f.user == user) = 1
      rw [List.countP_append]
      have h0 : st.flags.countP (fun f => f.claim_id == claim_id && f.user == user) = 0 :=
        List.countP_eq_zero.mpr (fun x hx => List.find?_eq_none.mp hfind x hx)
      rw [h0]
      simp

def c9Store : Store := { c3Store with flags := [⟨1, 7, "Flagged for review"⟩] }

/-- Closed instance of C9_flag_once: flagging claim 1 as user 7 on c3Store. -/
theorem C9_flag_once_witness :
    AtMostOneFlag c9Store ∧
    flag_claim c9Store 7 1 = .ok (c9Store, false) ∧
    c9Store.flags.countP (fun f => f.claim_id == 1 && f.user == 7) = 1 ∧
    ∀ c u, c9Store.flags.countP (fun f => f.claim_id == c && f.user == u) ≤ 1 :=
  C9_flag_once c3Store 7 1 (by decide) c9Store true (by decide)

def c1File : UFile := ⟨10, "claims.csv", .error "bad utf8", .error "x"⟩

/-- C1: import_data is transactional. Whenever the call returns an error, the
returned store is exactly the pre-call store (full rollback of the atomic block);
an unexpected failure e inside the body surfaces as "Import failed: e" with the
store rolled back; and a row-level validation failure only appends the tagged
message to the error list, leaving the accumulator store untouched, so the batch
continues. -/
theorem C1_transactional (st : Store) (cf : UFile) (df : Option UFile)
    (ft : FileType) (op : Operation) :
    (∀ e, (import_data st cf df ft op).2 = .error e → (import_data st cf df ft op).1 = st) ∧
    (∀ e, importBody st cf df ft op = .error e →
       ¬ cf.size > MAX_FILE_SIZE → (∀ f, df = some f → ¬ f.size > MAX_FILE_SIZE) →
       import_data st cf df ft op = (st, .error ("Import failed: " ++ e))) ∧
    (∀ append ctx row acc e, parseClaimRow ctx row = .error e →
       processClaimRow append ctx row acc = (acc.1, addError acc.2 (ctx ++ ": " ++ e))) := by
  refine ⟨?_, ?_, ?_⟩
  · intro e he
    unfold import_data at he ⊢
    cases hv : validate_file cf with
    | error e1 => rfl
    | ok u =>
      rw [hv] at he
      cases hdv : (match df with
                   | some dfi => validate_file dfi
                   | none => Except.ok ()) with
      | error e2 => rfl
      | ok u2 =>
        rw [hdv] at he
        cases hb : importBody st cf df ft op with
        | error e3 => rfl
        | ok a =>
          rw [hb] at he
          cases he
  · intro e hb h1 h2
    exact import_data_body_error h1 h2 hb
  · intro append ctx row acc e hp
    unfold processClaimRow
    rw [hp]

/-- Closed instance of C1_transactional: an unreadable claims file rolls back. -/
theorem C1_transactional_witness :
    import_data c3Store c1File none .csv .add =
      (c3Store, .error ("Import failed: " ++ "bad utf8")) :=
  (C1_transactional c3Store c1File none .csv .add).2.1 "bad utf8" (by decide) (by decide)
    (fun f hf => by cases hf)
